import Mathlib

/-!
Verification of the relationship-extraction and graph-construction core of the
veoci-solution-mapper repository (`analyzer.py` and `graph.py`), over a shallow
embedding of the Python code.

JSON-like dynamic values are modelled by `JVal`; Python dictionaries become
association lists in insertion order; code paths that can raise (attribute
access on a non-dict value, pydantic validation at `Relationship(...)`
construction) return `Except PyErr`.
-/

set_option maxHeartbeats 1000000

namespace Veoci

/-- A dynamically typed JSON-like value, as handled by the Python source.
Numbers are modelled as integers; every numeric literal the code compares
against is an integer. -/
inductive JVal where
  | null
  | bool (b : Bool)
  | num (n : Int)
  | str (s : String)
  | arr (items : List JVal)
  | obj (fields : List (String × JVal))
deriving Repr, Inhabited

/-- Errors the embedded code can raise: `attributeError` models calling `.get`
on a non-dict value, `validationError` models pydantic rejecting a field value
at `Relationship(...)` construction. -/
inductive PyErr where
  | attributeError
  | validationError
deriving Repr, DecidableEq

/-- First-match association-list lookup: Python `d[k]`/`d.get(k)` membership
(dict keys are unique in Python, so first match is the match). -/
def alook {α : Type} : List (String × α) → String → Option α
  | [], _ => none
  | (k, v) :: rest, key => if k = key then some v else alook rest key

/-- Python truthiness (`bool(v)`) for the modelled values. -/
def jTruthy : JVal → Bool
  | .null => false
  | .bool b => b
  | .num n => if n = 0 then false else true
  | .str s => if s = "" then false else true
  | .arr [] => false
  | .arr (_ :: _) => true
  | .obj [] => false
  | .obj (_ :: _) => true

/-- Python `a or b` on values: `a` if truthy, else `b`. -/
def pyOr (a b : JVal) : JVal := if jTruthy a then a else b

/-- Python `v == s` for a string literal `s`: true only when `v` is that string. -/
def pyEqStr (v : JVal) (s : String) : Bool :=
  match v with
  | .str t => t = s
  | _ => false

/-- Python `v == n` for an integer literal `n`; `True`/`False` compare as 1/0. -/
def pyEqInt (v : JVal) (n : Int) : Bool :=
  match v with
  | .num m => m = n
  | .bool b => (cond b 1 0 : Int) = n
  | _ => false

mutual

/-- Python `repr` of a value (used by `str` for lists and dicts). String
escaping inside reprs is not modelled; no claim inspects reprs of containers,
only their non-emptiness matters. -/
def pyRepr : JVal → String
  | .null => "None"
  | .bool b => cond b "True" "False"
  | .num n => toString n
  | .str s => "'" ++ s ++ "'"
  | .arr xs => "[" ++ pyReprItems xs ++ "]"
  | .obj fs => "\x7b" ++ pyReprFields fs ++ "\x7d"

/-- Comma-separated reprs of list items. -/
def pyReprItems : List JVal → String
  | [] => ""
  | [x] => pyRepr x
  | x :: y :: xs => pyRepr x ++ ", " ++ pyReprItems (y :: xs)

/-- Comma-separated `'key': value` reprs of dict entries. -/
def pyReprFields : List (String × JVal) → String
  | [] => ""
  | [(k, v)] => "'" ++ k ++ "': " ++ pyRepr v
  | (k, v) :: p :: fs => "'" ++ k ++ "': " ++ pyRepr v ++ ", " ++ pyReprFields (p :: fs)

end

/-- Python `str(v)`. -/
def pyStr : JVal → String
  | .null => "None"
  | .bool b => cond b "True" "False"
  | .num n => toString n
  | .str s => s
  | .arr xs => pyRepr (.arr xs)
  | .obj fs => pyRepr (.obj fs)

/-- pydantic validation of a `str` field: only a string is accepted. -/
def vStr : JVal → Except PyErr String
  | .str s => .ok s
  | _ => .error .validationError

/-- pydantic validation of a `str | None` field. -/
def vOptStr : JVal → Except PyErr (Option String)
  | .null => .ok none
  | .str s => .ok (some s)
  | _ => .error .validationError

/-- pydantic (lax-mode) validation of a `bool | None` field: bools, 0/1, and
the usual boolean strings are accepted. -/
def vOptBool : JVal → Except PyErr (Option Bool)
  | .null => .ok none
  | .bool b => .ok (some b)
  | .num n => if n = 0 then .ok (some false) else if n = 1 then .ok (some true) else .error .validationError
  | .str s =>
    let t := s.toLower
    if t = "true" ∨ t = "t" ∨ t = "yes" ∨ t = "y" ∨ t = "on" ∨ t = "1" then .ok (some true)
    else if t = "false" ∨ t = "f" ∨ t = "no" ∨ t = "n" ∨ t = "off" ∨ t = "0" then .ok (some false)
    else .error .validationError
  | _ => .error .validationError

/-- Python `v.get(k)`: `AttributeError` unless `v` is a dict; absent key gives
`None`. -/
def jGetAttr (v : JVal) (k : String) : Except PyErr JVal :=
  match v with
  | .obj fs => .ok ((alook fs k).getD .null)
  | _ => .error .attributeError

/-- The `Relationship` pydantic value object of `analyzer.py`. -/
structure Relationship where
  source_id : String
  source_name : String
  target_id : String
  target_name : Option String
  target_type : String
  relationship_type : String
  field_name : Option String := none
  action_id : Option String := none
  action_name : Option String := none
  trigger_type : Option String := none
  automatic : Option Bool := none
  target_container_id : Option String := none
  is_subform : Option Bool := none
deriving Repr, DecidableEq

/-- The composite deduplication key used at the end of `analyze_solution`. -/
def relKey (r : Relationship) :
    String × String × String × String × Option String × Option String :=
  (r.source_id, r.target_id, r.target_type, r.relationship_type, r.field_name, r.action_id)

/-- The dedup loop of `analyze_solution`: keep a relationship iff its key was
not seen before (`seen` models the accumulated Python set). -/
def dedupGo (seen : List (String × String × String × String × Option String × Option String)) :
    List Relationship → List Relationship
  | [] => []
  | r :: rest =>
    if relKey r ∈ seen then dedupGo seen rest
    else r :: dedupGo (relKey r :: seen) rest

/-- Deduplicate a relationship list on the composite key, first-seen wins. -/
def dedupRels (l : List Relationship) : List Relationship := dedupGo [] l

/-! ### `extract_relationships` (analyzer.py lines 45-141) -/

/-- Build the field-derived `Relationship` record, validating the dynamic
values the way pydantic does at construction. -/
def mkFieldRel (source_id : String) (source_name : JVal) (target_id : String)
    (target_name : JVal) (target_type : String) (relationship_type : JVal)
    (field_name : JVal) (target_container_id : Option String)
    (is_subform : Option Bool) : Except PyErr Relationship :=
  match vStr source_name, vStr relationship_type, vOptStr target_name, vOptStr field_name with
  | .ok sn, .ok rt, .ok tn, .ok fnm =>
    .ok { source_id := source_id, source_name := sn, target_id := target_id,
          target_name := tn, target_type := target_type, relationship_type := rt,
          field_name := fnm, target_container_id := target_container_id,
          is_subform := is_subform }
  | _, _, _, _ => .error .validationError

/-- The `is_subform` computation for a `REFERENCE` field:
`bool(field.get("properties", {}).get("referenceNewEntry"))`. -/
def refSubform (fs : List (String × JVal)) : Except PyErr (Option Bool) :=
  match (alook fs "properties").getD (.obj []) with
  | .obj ps => .ok (some (jTruthy ((alook ps "referenceNewEntry").getD .null)))
  | _ => .error .attributeError

/-- The `REFERENCE`/`FORM_ENTRY`/`LOOKUP` branch of the field loop: read
`sourceFormId`, resolve the inlined `sourceForm.name`, compute `is_subform`
for `REFERENCE` fields, and emit a `form` relationship. -/
def refBranch (form_id : String) (form_name : JVal) (fs : List (String × JVal))
    (field_type field_name : JVal) : Except PyErr (List Relationship) :=
  let source_form_id := (alook fs "sourceFormId").getD .null
  if jTruthy source_form_id then
    let source_form := (alook fs "sourceForm").getD (.obj [])
    match (if jTruthy source_form then jGetAttr source_form "name" else .ok .null) with
    | .error e => .error e
    | .ok target_name =>
      match (if pyEqStr field_type "REFERENCE" then refSubform fs else .ok none) with
      | .error e => .error e
      | .ok is_subform =>
        match mkFieldRel form_id form_name (pyStr source_form_id) target_name
            "form" field_type field_name none is_subform with
        | .error e => .error e
        | .ok r => .ok [r]
  else .ok []

/-- The `WORKFLOW`/`WORKFLOW_LOOKUP` branch of the field loop: read
`properties.processId`/`processName` and emit a `workflow` relationship. -/
def wfBranch (form_id : String) (form_name : JVal) (fs : List (String × JVal))
    (field_type field_name : JVal) : Except PyErr (List Relationship) :=
  match (alook fs "properties").getD (.obj []) with
  | .obj ps =>
    let process_id := (alook ps "processId").getD .null
    let process_name := (alook ps "processName").getD .null
    if jTruthy process_id then
      match mkFieldRel form_id form_name (pyStr process_id) process_name
          "workflow" field_type field_name none none with
      | .error e => .error e
      | .ok r => .ok [r]
    else .ok []
  | _ => .error .attributeError

/-- The `TASK` branch of the field loop: read `properties.taskTypeFilter` and
`taskTypeContainer` and emit a `task_type` relationship. -/
def taskBranch (form_id : String) (form_name : JVal) (fs : List (String × JVal))
    (field_name : JVal) : Except PyErr (List Relationship) :=
  match (alook fs "properties").getD (.obj []) with
  | .obj ps =>
    let task_type_id := (alook ps "taskTypeFilter").getD .null
    let task_type_container := (alook ps "taskTypeContainer").getD .null
    if jTruthy task_type_id then
      match mkFieldRel form_id form_name (pyStr task_type_id) .null
          "task_type" (.str "TASK") field_name
          (if jTruthy task_type_container then some (pyStr task_type_container) else none)
          none with
      | .error e => .error e
      | .ok r => .ok [r]
    else .ok []
  | _ => .error .attributeError

/-- The body of the `for field_id, field in fields.items()` loop of
`extract_relationships`, for one field: dispatch on the field type tag. -/
def processField (form_id : String) (form_name : JVal) (field_id : String)
    (field : JVal) : Except PyErr (List Relationship) :=
  match field with
  | .obj fs =>
    let field_type := (alook fs "fieldType").getD (.str "")
    let field_name := (alook fs "name").getD (.str ("Field " ++ field_id))
    if pyEqStr field_type "REFERENCE" || pyEqStr field_type "FORM_ENTRY" ||
        pyEqStr field_type "LOOKUP" then
      refBranch form_id form_name fs field_type field_name
    else if pyEqStr field_type "WORKFLOW" || pyEqStr field_type "WORKFLOW_LOOKUP" then
      wfBranch form_id form_name fs field_type field_name
    else if pyEqStr field_type "TASK" then
      taskBranch form_id form_name fs field_name
    else .ok []
  | _ => .error .attributeError

/-- Process the fields of one form in iteration order, concatenating the
per-field relationships; the first raised error aborts (Python exception). -/
def extractFields (form_id : String) (form_name : JVal) :
    List (String × JVal) → Except PyErr (List Relationship)
  | [] => .ok []
  | (field_id, field) :: rest =>
    match processField form_id form_name field_id field with
    | .error e => .error e
    | .ok rs =>
      match extractFields form_id form_name rest with
      | .error e => .error e
      | .ok rest' => .ok (rs ++ rest')

/-- `extract_relationships(form_definition, container_id)`. The
`container_id` argument is accepted and unused, as in the source. -/
def extract_relationships (form_definition : JVal) (container_id : Option String) :
    Except PyErr (List Relationship) :=
  match form_definition with
  | .obj fds =>
    let form_id := pyStr ((alook fds "id").getD (.str ""))
    let form_name := (alook fds "name").getD (.str "Unknown")
    match (alook fds "fields").getD (.obj []) with
    | .obj fs => extractFields form_id form_name fs
    | _ => .ok []
  | _ => .error .attributeError

/-! ### `extract_action_relationships` (analyzer.py lines 144-275) -/

/-- Build an action-derived `Relationship`, validating the dynamic values the
way pydantic does at construction. -/
def mkActionRel (source_id : String) (source_name : JVal) (target_id : String)
    (target_type relationship_type : String) (target_container_id : Option String)
    (action_id : String) (action_name trigger_type automatic : JVal) :
    Except PyErr Relationship :=
  match vStr source_name, vOptStr action_name, vOptStr trigger_type, vOptBool automatic with
  | .ok sn, .ok an, .ok tr, .ok au =>
    .ok { source_id := source_id, source_name := sn, target_id := target_id,
          target_name := none, target_type := target_type,
          relationship_type := relationship_type, field_name := none,
          action_id := some action_id, action_name := an, trigger_type := tr,
          automatic := au, target_container_id := target_container_id,
          is_subform := none }
  | _, _, _, _ => .error .validationError

/-- The `targetObjectType` mapping branch of `extract_action_relationships`:
code 5 → `ACTION_CREATES_ENTRY` on `targetForm`, 9 → `ACTION_INVOKES_WORKFLOW`
on `targetProcess`, 3 → `ACTION_CREATES_TASK` on `targetTaskType`; task-type
targets additionally resolve a container id from three parameter names. -/
def primaryRel (source_id : String) (source_name : JVal) (pfs : List (String × JVal))
    (action_id : String) (action_name trigger_type automatic : JVal) :
    Except PyErr (List Relationship) :=
  let target_object_type := (alook pfs "targetObjectType").getD .null
  let spec : Option (String × String × JVal) :=
    if pyEqInt target_object_type 5 then
      some ("ACTION_CREATES_ENTRY", "form", (alook pfs "targetForm").getD .null)
    else if pyEqInt target_object_type 9 then
      some ("ACTION_INVOKES_WORKFLOW", "workflow", (alook pfs "targetProcess").getD .null)
    else if pyEqInt target_object_type 3 then
      some ("ACTION_CREATES_TASK", "task_type", (alook pfs "targetTaskType").getD .null)
    else none
  match spec with
  | some (relationship_type, target_type, target_id) =>
    if jTruthy target_id then
      let target_container_id :=
        if target_type = "task_type" then
          let c := pyOr (pyOr ((alook pfs "targetTaskTypeContainer").getD .null)
            ((alook pfs "taskTypeContainer").getD .null)) ((alook pfs "targetContainer").getD .null)
          if jTruthy c then some (pyStr c) else none
        else none
      match mkActionRel source_id source_name (pyStr target_id) target_type
          relationship_type target_container_id action_id action_name trigger_type automatic with
      | .error e => .error e
      | .ok r => .ok [r]
    else .ok []
  | none => .ok []

/-- The template/plan launch branch of `extract_action_relationships`:
`targetContainerType` 5 → `ACTION_LAUNCHES_TEMPLATE` (template), 7 →
`ACTION_LAUNCHES_PLAN` (plan), target id from `targetContainerId`. -/
def launchRel (source_id : String) (source_name : JVal) (pfs : List (String × JVal))
    (action_id : String) (action_name trigger_type automatic : JVal) :
    Except PyErr (List Relationship) :=
  let target_container_type := (alook pfs "targetContainerType").getD .null
  if pyEqInt target_container_type 5 then
    let cid := (alook pfs "targetContainerId").getD .null
    if jTruthy cid then
      match mkActionRel source_id source_name (pyStr cid) "template"
          "ACTION_LAUNCHES_TEMPLATE" none action_id action_name trigger_type automatic with
      | .error e => .error e
      | .ok r => .ok [r]
    else .ok []
  else if pyEqInt target_container_type 7 then
    let cid := (alook pfs "targetContainerId").getD .null
    if jTruthy cid then
      match mkActionRel source_id source_name (pyStr cid) "plan"
          "ACTION_LAUNCHES_PLAN" none action_id action_name trigger_type automatic with
      | .error e => .error e
      | .ok r => .ok [r]
    else .ok []
  else .ok []

/-- The body of the `for action in actions` loop of
`extract_action_relationships`, for one action record. -/
def processAction (source_id : String) (source_name : JVal) (action : JVal) :
    Except PyErr (List Relationship) :=
  match action with
  | .obj afs =>
    let action_id := pyStr ((alook afs "id").getD (.str ""))
    let action_name := (alook afs "name").getD (.str "Unknown Action")
    let consequence_type := (alook afs "consequenceType").getD (.str "")
    let trigger_type := (alook afs "eventType").getD (.str "")
    let automatic := (alook afs "automatic").getD (.bool false)
    if pyEqStr consequence_type "CALL_REST_API" then .ok []
    else
      match (alook afs "consequenceParams").getD (.obj []) with
      | .obj pfs =>
        let target_object_type := (alook pfs "targetObjectType").getD .null
        if pyEqInt target_object_type 11 || pyEqInt target_object_type 16 ||
            pyEqInt target_object_type 21 || pyEqInt target_object_type 22 then .ok []
        else
          match primaryRel source_id source_name pfs action_id action_name trigger_type automatic with
          | .error e => .error e
          | .ok rels1 =>
            match launchRel source_id source_name pfs action_id action_name trigger_type automatic with
            | .error e => .error e
            | .ok rels2 => .ok (rels1 ++ rels2)
      | _ => .ok []
  | _ => .error .attributeError

/-- Process a list of actions in order, concatenating per-action
relationships; the first raised error aborts. -/
def processActions (source_id : String) (source_name : JVal) :
    List JVal → Except PyErr (List Relationship)
  | [] => .ok []
  | a :: rest =>
    match processAction source_id source_name a with
    | .error e => .error e
    | .ok rs =>
      match processActions source_id source_name rest with
      | .error e => .error e
      | .ok rest' => .ok (rs ++ rest')

/-- `extract_action_relationships(source_id, source_name, source_type, actions)`.
`source_type` is accepted and unused, as in the source. -/
def extract_action_relationships (source_id : String) (source_name : JVal)
    (source_type : String) (actions : List JVal) : Except PyErr (List Relationship) :=
  processActions source_id source_name actions

/-! ### `analyze_solution` (analyzer.py lines 288-374) -/

/-- Python truthiness of the optional `actions` mapping (`if actions:`). -/
def actionsTruthy : Option (List (String × List JVal)) → Bool
  | none => false
  | some [] => false
  | some (_ :: _) => true

/-- Python truthiness of the optional `task_types` mapping (`if task_types:`). -/
def taskTypesTruthy : Option (List (String × JVal)) → Bool
  | none => false
  | some [] => false
  | some (_ :: _) => true

/-- `actions.get(object_id, [])`. -/
def actGet (actions : Option (List (String × List JVal))) (k : String) : List JVal :=
  match actions with
  | some l => (alook l k).getD []
  | none => []

/-- Action relationships of one form inside `analyze_solution`: read the
form's id and name, look its actions up, extract if any. -/
def formActionRels (actions : Option (List (String × List JVal))) (form : JVal) :
    Except PyErr (List Relationship) :=
  match form with
  | .obj fds =>
    let form_id := pyStr ((alook fds "id").getD (.str ""))
    let form_name := (alook fds "name").getD (.str "Unknown")
    let form_actions := actGet actions form_id
    if form_actions.isEmpty then .ok []
    else extract_action_relationships form_id form_name "form" form_actions
  | _ => .error .attributeError

/-- Action relationships of one task type inside `analyze_solution`: the
mapping key is the action source id; the name default differs from forms. -/
def taskTypeActionRels (actions : Option (List (String × List JVal)))
    (task_type_id : String) (task_type : JVal) : Except PyErr (List Relationship) :=
  match task_type with
  | .obj fds =>
    let task_type_name := (alook fds "name").getD (.str "Unknown Task Type")
    let task_type_actions := actGet actions task_type_id
    if task_type_actions.isEmpty then .ok []
    else extract_action_relationships task_type_id task_type_name "task_type" task_type_actions
  | _ => .error .attributeError

/-- The per-form half of `analyze_solution`: field relationships, then (when
`actions` is truthy) action relationships for that form's id. -/
def gatherForms (actions : Option (List (String × List JVal))) (container_id : Option String) :
    List JVal → Except PyErr (List Relationship)
  | [] => .ok []
  | form :: rest =>
    match extract_relationships form container_id with
    | .error e => .error e
    | .ok rels =>
      match (if actionsTruthy actions then formActionRels actions form else .ok []) with
      | .error e => .error e
      | .ok arels =>
        match gatherForms actions container_id rest with
        | .error e => .error e
        | .ok rest' => .ok (rels ++ arels ++ rest')

/-- The per-task-type half of `analyze_solution`: same pattern as forms. -/
def gatherTaskTypes (actions : Option (List (String × List JVal))) (container_id : Option String) :
    List (String × JVal) → Except PyErr (List Relationship)
  | [] => .ok []
  | (task_type_id, task_type) :: rest =>
    match extract_relationships task_type container_id with
    | .error e => .error e
    | .ok rels =>
      match (if actionsTruthy actions then taskTypeActionRels actions task_type_id task_type
             else .ok []) with
      | .error e => .error e
      | .ok arels =>
        match gatherTaskTypes actions container_id rest with
        | .error e => .error e
        | .ok rest' => .ok (rels ++ arels ++ rest')

/-- All relationships accumulated by `analyze_solution` before the final
dedup pass (`all_relationships`). -/
def gatherAll (form_definitions : List JVal) (actions : Option (List (String × List JVal)))
    (container_id : Option String) (task_types : Option (List (String × JVal))) :
    Except PyErr (List Relationship) :=
  match gatherForms actions container_id form_definitions with
  | .error e => .error e
  | .ok rs1 =>
    match (if taskTypesTruthy task_types then
             gatherTaskTypes actions container_id (task_types.getD [])
           else .ok []) with
    | .error e => .error e
    | .ok rs2 => .ok (rs1 ++ rs2)

/-- `analyze_solution(form_definitions, actions, container_id, task_types)`:
gather every relationship, then deduplicate on the composite key. -/
def analyze_solution (form_definitions : List JVal)
    (actions : Option (List (String × List JVal))) (container_id : Option String)
    (task_types : Option (List (String × JVal))) : Except PyErr (List Relationship) :=
  (gatherAll form_definitions actions container_id task_types).map dedupRels

/-! ### Graph model (`graph.py` over networkx `DiGraph`)

A `DiGraph` is modelled as an insertion-ordered node table (node id → attribute
dict) and an insertion-ordered edge table ((source, target) → attribute dict).
networkx semantics: `add_node`/`add_edge` on an existing node/edge MERGE the
new attributes into the existing dict (`dict.update`); `add_edge` inserts
missing endpoint nodes with empty attribute dicts. -/

structure Graph where
  nodes : List (String × List (String × JVal))
  edges : List (String × String × List (String × JVal))
deriving Repr

def emptyGraph : Graph := { nodes := [], edges := [] }

/-- `dict.update` for one key: overwrite in place, else append. -/
def setAttr (d : List (String × JVal)) (k : String) (v : JVal) : List (String × JVal) :=
  match d with
  | [] => [(k, v)]
  | (k0, v0) :: rest => if k0 = k then (k0, v) :: rest else (k0, v0) :: setAttr rest k v

/-- `old.update(upd)`: apply every update in order. -/
def mergeAttrs (old upd : List (String × JVal)) : List (String × JVal) :=
  upd.foldl (fun d p => setAttr d p.1 p.2) old

/-- Merge attributes into the (first) entry of the node table with this id. -/
def updateNode (ns : List (String × List (String × JVal))) (nid : String)
    (attrs : List (String × JVal)) : List (String × List (String × JVal)) :=
  match ns with
  | [] => []
  | (k, d) :: rest =>
    if k = nid then (k, mergeAttrs d attrs) :: rest else (k, d) :: updateNode rest nid attrs

/-- networkx `add_node`: merge into an existing node, else append a fresh one. -/
def addNode (g : Graph) (nid : String) (attrs : List (String × JVal)) : Graph :=
  if (alook g.nodes nid).isSome then { g with nodes := updateNode g.nodes nid attrs }
  else { g with nodes := g.nodes ++ [(nid, mergeAttrs [] attrs)] }

/-- Insert a node with an empty attribute dict when absent (what `add_edge`
does for missing endpoints). -/
def ensureNode (g : Graph) (nid : String) : Graph :=
  if (alook g.nodes nid).isSome then g else { g with nodes := g.nodes ++ [(nid, [])] }

/-- Edge-table lookup on the ordered (source, target) key. -/
def elook (es : List (String × String × List (String × JVal))) (u v : String) :
    Option (List (String × JVal)) :=
  match es with
  | [] => none
  | (a, b, d) :: rest => if a = u ∧ b = v then some d else elook rest u v

/-- Merge attributes into the (first) edge-table entry with this key. -/
def updateEdge (es : List (String × String × List (String × JVal))) (u v : String)
    (attrs : List (String × JVal)) : List (String × String × List (String × JVal)) :=
  match es with
  | [] => []
  | (a, b, d) :: rest =>
    if a = u ∧ b = v then (a, b, mergeAttrs d attrs) :: rest
    else (a, b, d) :: updateEdge rest u v attrs

/-- networkx `add_edge`: ensure both endpoint nodes exist, then merge the
attributes into an existing (u, v) edge or append a fresh one. -/
def addEdge (g : Graph) (u v : String) (attrs : List (String × JVal)) : Graph :=
  let g1 := ensureNode (ensureNode g u) v
  if (elook g1.edges u v).isSome then { g1 with edges := updateEdge g1.edges u v attrs }
  else { g1 with edges := g1.edges ++ [(u, v, mergeAttrs [] attrs)] }

/-! ### `build_graph` (graph.py lines 10-90) -/

/-- Lift an optional ambient container id into a value (`None` when absent). -/
def jOfOptStr : Option String → JVal
  | none => .null
  | some s => .str s

/-- Add one form node: key `str(form.get("id") or form.get("formId"))`, with
name, node_type, external flag and resolved container id. -/
def formStep (solution_container_id : Option String) (g : Graph) (form : JVal) :
    Except PyErr Graph :=
  match form with
  | .obj fs =>
    let form_id := pyStr (pyOr ((alook fs "id").getD .null) ((alook fs "formId").getD .null))
    let is_external := (alook fs "external").getD (.bool false)
    let container_id := pyOr ((alook fs "containerId").getD .null) (jOfOptStr solution_container_id)
    .ok (addNode g form_id
      [("name", (alook fs "name").getD (.str "Unknown")),
       ("node_type", .str "form"),
       ("external", is_external),
       ("container_id", if jTruthy container_id then .str (pyStr container_id) else .null)])
  | _ => .error .attributeError

/-- Add one workflow node: key `str(workflow.get("id") or workflow.get("processId"))`;
no external flag on workflow nodes. -/
def workflowStep (solution_container_id : Option String) (g : Graph) (workflow : JVal) :
    Except PyErr Graph :=
  match workflow with
  | .obj fs =>
    let workflow_id := pyStr (pyOr ((alook fs "id").getD .null) ((alook fs "processId").getD .null))
    let container_id := pyOr ((alook fs "containerId").getD .null) (jOfOptStr solution_container_id)
    .ok (addNode g workflow_id
      [("name", (alook fs "name").getD (.str "Unknown")),
       ("node_type", .str "workflow"),
       ("container_id", if jTruthy container_id then .str (pyStr container_id) else .null)])
  | _ => .error .attributeError

/-- Add one task-type node: keyed by `categoryId`; the container id comes from
the nested `container` object (raising when that value is not a dict). -/
def taskTypeStep (g : Graph) (task_type : JVal) : Except PyErr Graph :=
  match task_type with
  | .obj fs =>
    let task_type_id := pyStr ((alook fs "categoryId").getD .null)
    let is_external := (alook fs "external").getD (.bool false)
    match (alook fs "container").getD (.obj []) with
    | .obj cs =>
      let container_id := (alook cs "id").getD .null
      .ok (addNode g task_type_id
        [("name", (alook fs "name").getD (.str "Unknown")),
         ("node_type", .str "task_type"),
         ("external", is_external),
         ("container_id", if jTruthy container_id then .str (pyStr container_id) else .null)])
    | _ => .error .attributeError
  | _ => .error .attributeError

/-- Fold a node-adding step over a list of entity records, stopping at the
first error. -/
def addNodesWith (step : Graph → JVal → Except PyErr Graph) :
    Graph → List JVal → Except PyErr Graph
  | g, [] => .ok g
  | g, e :: rest =>
    match step g e with
    | .error er => .error er
    | .ok g' => addNodesWith step g' rest

/-- `if rel.action_id:` — the action/field edge categorization predicate
(`None` and the empty string are falsy). -/
def isActionId : Option String → Bool
  | none => false
  | some s => if s = "" then false else true

def jOfOptStrV : Option String → JVal
  | none => .null
  | some s => .str s

def jOfOptBool : Option Bool → JVal
  | none => .null
  | some b => .bool b

/-- The `edge_data` dict built for one relationship in `build_graph`. -/
def edgeAttrsOf (rel : Relationship) : List (String × JVal) :=
  [("relationship_type", .str rel.relationship_type),
   ("field_name", jOfOptStrV rel.field_name),
   ("target_type", .str rel.target_type)] ++
  (if isActionId rel.action_id then
    [("action_id", jOfOptStrV rel.action_id),
     ("action_name", jOfOptStrV rel.action_name),
     ("trigger_type", jOfOptStrV rel.trigger_type),
     ("automatic", jOfOptBool rel.automatic),
     ("edge_category", .str "action")]
   else [("edge_category", .str "field")]) ++
  (match rel.is_subform with
   | some b => [("is_subform", .bool b)]
   | none => [])

/-- Add one relationship's edge. -/
def addRelEdge (g : Graph) (rel : Relationship) : Graph :=
  addEdge g rel.source_id rel.target_id (edgeAttrsOf rel)

/-- `build_graph(forms, workflows, relationships, task_types, solution_container_id)`. -/
def build_graph (forms workflows : List JVal) (relationships : List Relationship)
    (task_types : Option (List JVal)) (solution_container_id : Option String) :
    Except PyErr Graph :=
  match addNodesWith (formStep solution_container_id) emptyGraph forms with
  | .error e => .error e
  | .ok g1 =>
    match addNodesWith (workflowStep solution_container_id) g1 workflows with
    | .error e => .error e
    | .ok g2 =>
      match addNodesWith taskTypeStep g2 (task_types.getD []) with
      | .error e => .error e
      | .ok g3 => .ok (relationships.foldl addRelEdge g3)

/-! ### `get_graph_stats` (graph.py lines 93-141) -/

/-- `graph.nodes[n].get(k)` with `None` for a missing attribute. -/
def getNodeAttrD (g : Graph) (nid k : String) : JVal :=
  match alook g.nodes nid with
  | some d => (alook d k).getD .null
  | none => .null

/-- Nodes whose `node_type` attribute equals the given tag. -/
def nodesOfType (g : Graph) (t : String) : List (String × List (String × JVal)) :=
  g.nodes.filter (fun n => pyEqStr ((alook n.2 "node_type").getD .null) t)

mutual

/-- Structural equality on values, with Python's bool/int cross-equality.
(Dict comparison is order-sensitive here; the only keys this is applied to in
`get_graph_stats` are plain strings, where it coincides with Python `==`.) -/
def jeqb : JVal → JVal → Bool
  | .null, .null => true
  | .bool a, .bool b => a = b
  | .bool a, .num b => (cond a 1 0 : Int) = b
  | .num a, .bool b => a = (cond b 1 0 : Int)
  | .num a, .num b => a = b
  | .str a, .str b => a = b
  | .arr a, .arr b => jeqbItems a b
  | .obj a, .obj b => jeqbFields a b
  | _, _ => false

/-- Pairwise equality of list items (helper of `jeqb`). -/
def jeqbItems : List JVal → List JVal → Bool
  | [], [] => true
  | a :: as', b :: bs => jeqb a b && jeqbItems as' bs
  | _, _ => false

/-- Pairwise equality of dict entries (helper of `jeqb`). -/
def jeqbFields : List (String × JVal) → List (String × JVal) → Bool
  | [], [] => true
  | (ka, va) :: as', (kb, vb) :: bs => ka = kb && jeqb va vb && jeqbFields as' bs
  | _, _ => false

end

/-- Increment the count for a key in the `edge_types` tally. -/
def bumpKey (m : List (JVal × Nat)) (k : JVal) : List (JVal × Nat) :=
  match m with
  | [] => [(k, 1)]
  | (k0, c) :: rest => if jeqb k0 k then (k0, c + 1) :: rest else (k0, c) :: bumpKey rest k

/-- A node is isolated when no edge touches it in either direction. -/
def isIsolated (g : Graph) (nid : String) : Bool :=
  !(g.edges.any (fun e => e.1 = nid || e.2.1 = nid))

/-- Incoming edge count of a node. -/
def inDegree (g : Graph) (nid : String) : Nat :=
  (g.edges.filter (fun e => e.2.1 = nid)).length

/-- Outgoing edge count of a node. -/
def outDegree (g : Graph) (nid : String) : Nat :=
  (g.edges.filter (fun e => e.1 = nid)).length

/-- Stable descending insertion (later elements go after existing equals),
matching Python's stable `sorted(..., reverse=True)` on the count. -/
def insDesc (x : String × Nat) : List (String × Nat) → List (String × Nat)
  | [] => [x]
  | y :: ys => if y.2 ≥ x.2 then y :: insDesc x ys else x :: y :: ys

/-- Stable descending sort by count. -/
def sortDescStable (l : List (String × Nat)) : List (String × Nat) :=
  l.foldl (fun acc x => insDesc x acc) []

/-- Top-5 list entries `(id, name, count)` with zero counts filtered out. -/
def topRefList (g : Graph) (degs : List (String × Nat)) : List (String × JVal × Nat) :=
  ((sortDescStable degs).take 5).filterMap
    (fun p => if p.2 > 0 then some (p.1, getNodeAttrD g p.1 "name", p.2) else none)

/-- Partition lookup: the group containing a node, if any. -/
def groupOf (p : List (List String)) (x : String) : Option (List String) :=
  p.find? (fun grp => grp.contains x)

/-- Start of the weak-connectivity computation: one singleton group per
distinct node id, in node order. -/
def wccInit : List (String × List (String × JVal)) → List (List String) → List (List String)
  | [], p => p
  | n :: rest, p =>
    if (groupOf p n.1).isSome then wccInit rest p else wccInit rest (p ++ [[n.1]])

/-- Merge the groups of the two endpoints of an edge. -/
def mergeEP (p : List (List String)) (u v : String) : List (List String) :=
  let p1 := if (groupOf p u).isSome then p else p ++ [[u]]
  let p2 := if (groupOf p1 v).isSome then p1 else p1 ++ [[v]]
  match groupOf p2 u, groupOf p2 v with
  | some gu, some gv =>
    if gu.contains v then p2
    else p2.foldr (fun grp acc =>
      if grp = gu then (gu ++ gv) :: acc else if grp = gv then acc else grp :: acc) []
  | _, _ => p2

/-- `nx.number_weakly_connected_components`: union the endpoint groups of every
edge and count the remaining groups. -/
def wccCount (g : Graph) : Nat :=
  (g.edges.foldl (fun p e => mergeEP p e.1 e.2.1) (wccInit g.nodes [])).length

/-- The statistics record returned by `get_graph_stats`. -/
structure GraphStats where
  total_nodes : Nat
  form_count : Nat
  workflow_count : Nat
  task_type_count : Nat
  total_edges : Nat
  action_edges : Nat
  field_edges : Nat
  edge_types : List (JVal × Nat)
  isolated_nodes : Nat
  connected_components : Nat
  most_referenced : List (String × JVal × Nat)
  most_referencing : List (String × JVal × Nat)
deriving Repr

/-- `get_graph_stats(graph)`. -/
def get_graph_stats (g : Graph) : GraphStats :=
  { total_nodes := g.nodes.length
    form_count := (nodesOfType g "form").length
    workflow_count := (nodesOfType g "workflow").length
    task_type_count := (nodesOfType g "task_type").length
    total_edges := g.edges.length
    action_edges := (g.edges.filter
      (fun e => pyEqStr ((alook e.2.2 "edge_category").getD .null) "action")).length
    field_edges := (g.edges.filter
      (fun e => pyEqStr ((alook e.2.2 "edge_category").getD .null) "field")).length
    edge_types := g.edges.foldl
      (fun m e => bumpKey m ((alook e.2.2 "relationship_type").getD (.str "unknown"))) []
    isolated_nodes := (g.nodes.filter (fun n => isIsolated g n.1)).length
    connected_components := wccCount g
    most_referenced := topRefList g (g.nodes.map (fun n => (n.1, inDegree g n.1)))
    most_referencing := topRefList g (g.nodes.map (fun n => (n.1, outDegree g n.1))) }

/-! ### `get_node_neighbors` (graph.py lines 144-183) -/

/-- One predecessor/successor entry dict. -/
def nbrEntry (g : Graph) (other : String) (d : List (String × JVal)) : JVal :=
  .obj [("id", .str other),
        ("name", getNodeAttrD g other "name"),
        ("relationship", (alook d "relationship_type").getD .null),
        ("field", (alook d "field_name").getD .null)]

/-- Entries for `graph.predecessors(node_id)`, in edge insertion order. -/
def predEntries (g : Graph) (nid : String) : List JVal :=
  g.edges.filterMap (fun e => if e.2.1 = nid then some (nbrEntry g e.1 e.2.2) else none)

/-- Entries for `graph.successors(node_id)`, in edge insertion order. -/
def succEntries (g : Graph) (nid : String) : List JVal :=
  g.edges.filterMap (fun e => if e.1 = nid then some (nbrEntry g e.2.1 e.2.2) else none)

/-- `get_node_neighbors(graph, node_id)`: a structured not-found dict when the
id is absent, else the node's name/type with predecessor and successor lists. -/
def get_node_neighbors (g : Graph) (node_id : String) : JVal :=
  match alook g.nodes node_id with
  | none => .obj [("error", .str ("Node " ++ node_id ++ " not found"))]
  | some node_data =>
    .obj [("id", .str node_id),
          ("name", (alook node_data "name").getD .null),
          ("type", (alook node_data "node_type").getD .null),
          ("referenced_by", .arr (predEntries g node_id)),
          ("references", .arr (succEntries g node_id))]

/-! ### Key computations used to state the graph claims -/

/-- The node key `build_graph` computes for a form record. -/
def formKey (form : JVal) : Except PyErr String :=
  match form with
  | .obj fs => .ok (pyStr (pyOr ((alook fs "id").getD .null) ((alook fs "formId").getD .null)))
  | _ => .error .attributeError

/-- The node key `build_graph` computes for a workflow record. -/
def workflowKey (workflow : JVal) : Except PyErr String :=
  match workflow with
  | .obj fs => .ok (pyStr (pyOr ((alook fs "id").getD .null) ((alook fs "processId").getD .null)))
  | _ => .error .attributeError

/-- The node key `build_graph` computes for a task-type record. -/
def taskTypeKey (task_type : JVal) : Except PyErr String :=
  match task_type with
  | .obj fs => .ok (pyStr ((alook fs "categoryId").getD .null))
  | _ => .error .attributeError

/-- Map a key computation over a list of entity records. -/
def keysOfE (keyf : JVal → Except PyErr String) : List JVal → Except PyErr (List String)
  | [] => .ok []
  | e :: rest =>
    match keyf e with
    | .error er => .error er
    | .ok k =>
      match keysOfE keyf rest with
      | .error er => .error er
      | .ok ks => .ok (k :: ks)

/-- The node keys of all supplied entities, in insertion order. -/
def entityKeys (forms workflows task_types : List JVal) : Except PyErr (List String) :=
  match keysOfE formKey forms with
  | .error e => .error e
  | .ok ksf =>
    match keysOfE workflowKey workflows with
    | .error e => .error e
    | .ok ksw =>
      match keysOfE taskTypeKey task_types with
      | .error e => .error e
      | .ok kst => .ok (ksf ++ ksw ++ kst)

/-- The per-pair edge-attribute dicts contributed by a relationship list, in
order, for one ordered (source, target) pair. -/
def edgesFor (rels : List Relationship) (u v : String) : List (List (String × JVal)) :=
  (rels.filter (fun r => r.source_id = u && r.target_id = v)).map edgeAttrsOf

/-- The value of `field.properties.referenceNewEntry` as the `is_subform`
computation observes it (absent properties and absent flag both read as
`None`); used to state the is_subform policy. -/
def refNewEntryVal (field : JVal) : JVal :=
  match field with
  | .obj fs =>
    match alook fs "properties" with
    | some (.obj ps) => (alook ps "referenceNewEntry").getD .null
    | some _ => .null
    | none => .null
  | _ => .null

/-! ### Well-formedness of field data (sufficient no-raise conditions) -/

/-- A value read into a pydantic `str | None` slot must be absent, `None`, or
a string. -/
def wfOptStrVal : Option JVal → Bool
  | none => true
  | some .null => true
  | some (.str _) => true
  | some _ => false

/-- The `properties` value must be absent or a dict, and a present
`processName` must be `None` or a string. -/
def propsOkB (fs : List (String × JVal)) : Bool :=
  match alook fs "properties" with
  | none => true
  | some (.obj ps) => wfOptStrVal (alook ps "processName")
  | some _ => false

/-- A truthy `sourceForm` value must be a dict whose `name` is absent, `None`
or a string. -/
def sourceFormOkB (fs : List (String × JVal)) : Bool :=
  match alook fs "sourceForm" with
  | none => true
  | some v =>
    if jTruthy v then
      match v with
      | .obj gs => wfOptStrVal (alook gs "name")
      | _ => false
    else true

/-- A field record from which `processField` cannot raise: a dict with a
well-typed name, properties and sourceForm. -/
def WFField (f : JVal) : Bool :=
  match f with
  | .obj fs => wfOptStrVal (alook fs "name") && propsOkB fs && sourceFormOkB fs
  | _ => false

/-- A form record from which `extract_relationships` cannot raise: a dict
whose name is absent or a string and whose fields (when a dict) are all
well-formed. -/
def WFForm (form_definition : JVal) : Bool :=
  match form_definition with
  | .obj fds =>
    (match alook fds "name" with
     | none => true
     | some (.str _) => true
     | some _ => false) &&
    (match alook fds "fields" with
     | some (.obj l) => l.all (fun p => WFField p.2)
     | _ => true)
  | _ => false

/-! ### Concrete inputs used by witnesses and counterexamples -/

/-- A form whose fields mapping contains a non-dict entry: `field.get(...)`
raises `AttributeError` on it. -/
def c3BadForm : JVal :=
  .obj [("id", .str "1"), ("name", .str "Bad"),
    ("fields", .obj [("f1", .str "oops")])]

/-- A form with two `REFERENCE` fields agreeing on the whole dedup key but
differing in the resolved target name (only `f1` inlines `sourceForm`). -/
def c1Form : JVal :=
  .obj [("id", .str "1"), ("name", .str "Intake"), ("fields", .obj
    [("f1", .obj [("fieldType", .str "REFERENCE"), ("name", .str "Parent"),
       ("sourceFormId", .str "2"), ("sourceForm", .obj [("name", .str "Parent Form")]),
       ("properties", .obj [])]),
     ("f2", .obj [("fieldType", .str "REFERENCE"), ("name", .str "Parent"),
       ("sourceFormId", .str "2")])])]

/-- The single surviving relationship for `c1Form`: the first-encountered one,
carrying the resolved target name. -/
def c1Rel : Relationship :=
  { source_id := "1", source_name := "Intake", target_id := "2",
    target_name := some "Parent Form", target_type := "form",
    relationship_type := "REFERENCE", field_name := some "Parent",
    is_subform := some false }

/-- Parameter bag with a skip-set `targetObjectType` (11 = SQL report) AND a
valid template-launch target. -/
def c4Params : List (String × JVal) :=
  [("targetObjectType", .num 11), ("targetContainerType", .num 5),
   ("targetContainerId", .str "T1")]

/-- An action (not a REST call) whose parameters are `c4Params`. -/
def c4Action : JVal :=
  .obj [("id", .str "a2"), ("name", .str "Act2"),
    ("consequenceType", .str "CREATE_OBJECT"),
    ("consequenceParams", .obj c4Params)]

/-- A field-derived `REFERENCE` relationship from node "1" to node "2",
carrying `is_subform = false`. -/
def c5rel1 : Relationship :=
  { source_id := "1", source_name := "F", target_id := "2", target_name := none,
    target_type := "form", relationship_type := "REFERENCE", field_name := some "Parent",
    is_subform := some false }

/-- An action-derived relationship on the same ordered pair ("1", "2"), with
no `is_subform`. -/
def c5rel2 : Relationship :=
  { source_id := "1", source_name := "F", target_id := "2", target_name := none,
    target_type := "form", relationship_type := "ACTION_CREATES_ENTRY", field_name := none,
    action_id := some "a1", action_name := some "Act", trigger_type := some "SUBMIT",
    automatic := some true }

/-- The graph built from `[c5rel1, c5rel2]` alone: one edge whose attribute
dict merges both relationships — later values overwrite, but `is_subform`
(set only by the earlier relationship) survives. -/
def c5g : Graph :=
  { nodes := [("1", []), ("2", [])],
    edges := [("1", "2",
      [("relationship_type", .str "ACTION_CREATES_ENTRY"),
       ("field_name", .null),
       ("target_type", .str "form"),
       ("edge_category", .str "action"),
       ("is_subform", .bool false),
       ("action_id", .str "a1"),
       ("action_name", .str "Act"),
       ("trigger_type", .str "SUBMIT"),
       ("automatic", .bool true)])] }

/-- Parameter bag with both a valid workflow invocation target (code 9) and a
valid template launch target (code 5). -/
def c6Params : List (String × JVal) :=
  [("targetObjectType", .num 9), ("targetProcess", .str "W1"),
   ("targetContainerType", .num 5), ("targetContainerId", .str "T1")]

/-- An action carrying `c6Params` — it should emit two relationships. -/
def c6Action : List (String × JVal) :=
  [("id", .str "a1"), ("name", .str "Act"), ("consequenceType", .str "CREATE_OBJECT"),
   ("eventType", .str "SUBMIT"), ("automatic", .bool true),
   ("consequenceParams", .obj c6Params)]

/-- A `REFERENCE` field explicitly marked `referenceNewEntry = true`. -/
def c2Field : JVal :=
  .obj [("fieldType", .str "REFERENCE"), ("name", .str "Sub"),
    ("sourceFormId", .str "7"),
    ("properties", .obj [("referenceNewEntry", .bool true)])]

/-- The relationship extracted from `c2Field`: a subform reference. -/
def c2Rel : Relationship :=
  { source_id := "1", source_name := "F", target_id := "7", target_name := none,
    target_type := "form", relationship_type := "REFERENCE",
    field_name := some "Sub", is_subform := some true }

/-- The graph built from the single form `{id: "1"}` and nothing else. -/
def c8g : Graph :=
  { nodes := [("1",
      [("name", .str "Unknown"), ("node_type", .str "form"),
       ("external", .bool false), ("container_id", .null)])],
    edges := [] }

/-- A launch relationship pointing at template "99", which is no supplied
entity. -/
def c10Rel : Relationship :=
  { source_id := "1", source_name := "A", target_id := "99", target_name := none,
    target_type := "template", relationship_type := "ACTION_LAUNCHES_TEMPLATE",
    action_id := some "a1", action_name := some "L", trigger_type := some "SUBMIT",
    automatic := some false }

/-- The graph built from form "1" plus `c10Rel`: the target "99" becomes a
bare node. -/
def c10g : Graph :=
  { nodes := [("1",
      [("name", .str "A"), ("node_type", .str "form"),
       ("external", .bool false), ("container_id", .null)]),
      ("99", [])],
    edges := [("1", "99",
      [("relationship_type", .str "ACTION_LAUNCHES_TEMPLATE"),
       ("field_name", .null),
       ("target_type", .str "template"),
       ("action_id", .str "a1"),
       ("action_name", .str "L"),
       ("trigger_type", .str "SUBMIT"),
       ("automatic", .bool false),
       ("edge_category", .str "action")])] }

/-! ## Theorems -/

/-! ### Deduplication (claim C1) -/

theorem dedupGo_subset : ∀ (l : List Relationship) (seen : _) (r : Relationship),
    r ∈ dedupGo seen l → r ∈ l ∧ relKey r ∉ seen := by
  intro l
  induction l with
  | nil => intro seen r h; simp [dedupGo] at h
  | cons x xs ih =>
    intro seen r h
    by_cases hx : relKey x ∈ seen
    · simp only [dedupGo, if_pos hx] at h
      rcases ih seen r h with ⟨hm, hns⟩
      exact ⟨List.mem_cons_of_mem _ hm, hns⟩
    · simp only [dedupGo, if_neg hx] at h
      rcases List.mem_cons.mp h with rfl | h'
      · exact ⟨List.mem_cons_self _ _, hx⟩
      · rcases ih _ r h' with ⟨hm, hns⟩
        refine ⟨List.mem_cons_of_mem _ hm, fun hc => hns ?_⟩
        exact List.mem_cons_of_mem _ hc

theorem dedupGo_pairwise : ∀ (l : List Relationship) (seen : _),
    (dedupGo seen l).Pairwise (fun a b => relKey a ≠ relKey b) := by
  intro l
  induction l with
  | nil => intro seen; simp [dedupGo]
  | cons x xs ih =>
    intro seen
    by_cases hx : relKey x ∈ seen
    · simpa only [dedupGo, if_pos hx] using ih seen
    · simp only [dedupGo, if_neg hx]
      refine List.Pairwise.cons ?_ (ih _)
      intro b hb
      have := (dedupGo_subset xs _ b hb).2
      intro heq
      exact this (heq ▸ List.mem_cons_self _ _)

theorem dedupGo_find : ∀ (l : List Relationship) (seen : _) (r : Relationship),
    r ∈ dedupGo seen l → l.find? (fun x => relKey x == relKey r) = some r := by
  intro l
  induction l with
  | nil => intro seen r h; simp [dedupGo] at h
  | cons x xs ih =>
    intro seen r h
    by_cases hx : relKey x ∈ seen
    · simp only [dedupGo, if_pos hx] at h
      have hr := (dedupGo_subset xs seen r h).2
      have hne : (relKey x == relKey r) = false := by
        refine beq_false_of_ne fun hc => hr ?_
        exact hc ▸ hx
      rw [List.find?_cons_of_neg _ (by simp [hne]), ih seen r h]
    · simp only [dedupGo, if_neg hx] at h
      rcases List.mem_cons.mp h with rfl | h'
      · rw [List.find?_cons_of_pos _ (by simp)]
      · have hr := (dedupGo_subset xs _ r h').2
        have hne : (relKey x == relKey r) = false := by
          refine beq_false_of_ne fun hc => hr ?_
          exact hc ▸ List.mem_cons_self _ _
        rw [List.find?_cons_of_neg _ (by simp [hne]), ih _ r h']

theorem dedupGo_covers : ∀ (l : List Relationship) (seen : _) (r : Relationship),
    r ∈ l → relKey r ∉ seen → ∃ r' ∈ dedupGo seen l, relKey r' = relKey r := by
  intro l
  induction l with
  | nil => intro seen r h; simp at h
  | cons x xs ih =>
    intro seen r hm hns
    by_cases hx : relKey x ∈ seen
    · simp only [dedupGo, if_pos hx]
      rcases List.mem_cons.mp hm with rfl | h'
      · exact absurd hx hns
      · exact ih seen r h' hns
    · simp only [dedupGo, if_neg hx]
      rcases List.mem_cons.mp hm with rfl | h'
      · exact ⟨r, List.mem_cons_self _ _, rfl⟩
      · by_cases hk : relKey r = relKey x
        · exact ⟨x, List.mem_cons_self _ _, hk.symm⟩
        · rcases ih _ r h' (by
            intro hc
            rcases List.mem_cons.mp hc with hc1 | hc2
            · exact hk hc1
            · exact hns hc2) with ⟨r', hr'm, hr'k⟩
          exact ⟨r', List.mem_cons_of_mem _ hr'm, hr'k⟩

/-! ### `str()` of a truthy value is non-empty (used by claim C7) -/

theorem toDigitsCore_ne_nil (b : Nat) : ∀ (fuel n : Nat) (ds : List Char), ds ≠ [] →
    Nat.toDigitsCore b fuel n ds ≠ [] := by
  intro fuel
  induction fuel with
  | zero => intro n ds h; simpa [Nat.toDigitsCore] using h
  | succ f ih =>
    intro n ds h
    simp only [Nat.toDigitsCore]
    split
    · simp
    · exact ih _ _ (by simp)

theorem toDigits_ne_nil (b n : Nat) : Nat.toDigits b n ≠ [] := by
  simp only [Nat.toDigits, Nat.toDigitsCore]
  split
  · simp
  · exact toDigitsCore_ne_nil b _ _ _ (by simp)

theorem nat_repr_ne_empty (n : Nat) : Nat.repr n ≠ "" := by
  simp only [Nat.repr]
  intro h
  have hd := congrArg String.data h
  simp only [List.asString] at hd
  exact toDigits_ne_nil 10 n (by simpa using hd)

theorem int_toString_ne_empty (n : Int) : toString n ≠ "" := by
  show Int.repr n ≠ ""
  cases n with
  | ofNat m => exact nat_repr_ne_empty m
  | negSucc m =>
    intro h
    rw [show Int.repr (Int.negSucc m) = "-" ++ Nat.repr m.succ from rfl] at h
    have hd := congrArg String.data h
    rw [String.data_append] at hd
    simp at hd

/-- Python `str()` of any truthy value is a non-empty string. -/
theorem pyStr_ne_empty_of_truthy (v : JVal) (h : jTruthy v = true) : pyStr v ≠ "" := by
  cases v with
  | null => simp [jTruthy] at h
  | bool b =>
    cases b with
    | false => simp [jTruthy] at h
    | true => simp [pyStr]
  | num n => exact int_toString_ne_empty n
  | str s =>
    intro hc
    rw [show pyStr (.str s) = s from rfl] at hc
    subst hc
    simp [jTruthy] at h
  | arr xs =>
    intro hc
    have hd := congrArg String.data
      (show ("[" ++ pyReprItems xs ++ "]") = "" from hc)
    rw [String.data_append, String.data_append] at hd
    simp at hd
  | obj fs =>
    intro hc
    have hd := congrArg String.data
      (show ("\x7b" ++ pyReprFields fs ++ "\x7d") = "" from hc)
    rw [String.data_append, String.data_append] at hd
    simp at hd

/-- C1: `analyze_solution` deduplicates on the composite key
(source_id, target_id, target_type, relationship_type, field_name, action_id):
the output is the gathered list deduplicated; output keys are pairwise
distinct; every output entry is the FIRST gathered relationship with its key
(so two relationships equal on the key but differing in `target_name` or other
metadata collapse to the first-encountered one); and every gathered key is
still represented. -/
theorem analyze_solution_dedups_on_composite_key (form_definitions : List JVal)
    (actions : Option (List (String × List JVal))) (container_id : Option String)
    (task_types : Option (List (String × JVal))) (res : List Relationship)
    (h : analyze_solution form_definitions actions container_id task_types = .ok res) :
    ∃ all, gatherAll form_definitions actions container_id task_types = .ok all ∧
      res = dedupRels all ∧
      res.Pairwise (fun a b => relKey a ≠ relKey b) ∧
      (∀ r ∈ res, all.find? (fun x => relKey x == relKey r) = some r) ∧
      (∀ r ∈ all, ∃ r' ∈ res, relKey r' = relKey r) := by
  unfold analyze_solution at h
  cases hg : gatherAll form_definitions actions container_id task_types with
  | error e => rw [hg] at h; exact absurd h (by simp [Except.map])
  | ok all =>
    rw [hg] at h
    simp only [Except.map] at h
    have hres : res = dedupRels all := by
      cases h; rfl
    subst hres
    refine ⟨all, rfl, rfl, dedupGo_pairwise all [], ?_, ?_⟩
    · intro r hr
      exact dedupGo_find all [] r hr
    · intro r hr
      exact dedupGo_covers all [] r hr (by simp)

/-- C1 witness: a form with two same-key `REFERENCE` fields (differing only in
the inlined target name) analyzes to exactly the first relationship. -/
theorem analyze_solution_dedups_on_composite_key_witness :
    ∃ all, gatherAll [c1Form] none none none = .ok all ∧
      [c1Rel] = dedupRels all ∧
      List.Pairwise (fun a b => relKey a ≠ relKey b) [c1Rel] ∧
      (∀ r ∈ [c1Rel], all.find? (fun x => relKey x == relKey r) = some r) ∧
      (∀ r ∈ all, ∃ r' ∈ [c1Rel], relKey r' = relKey r) :=
  analyze_solution_dedups_on_composite_key [c1Form] none none none [c1Rel] (by rfl)

/-! ### Per-field soundness of `extract_relationships` (claims C2, C7) -/

theorem vStr_ok {v : JVal} {s : String} (h : vStr v = .ok s) : v = .str s := by
  cases v <;> simp [vStr] at h
  rw [h]

theorem refSubform_ok {fs : List (String × JVal)} {b : Option Bool}
    (h : refSubform fs = .ok b) : b = some (jTruthy (refNewEntryVal (.obj fs))) := by
  unfold refSubform at h
  unfold refNewEntryVal
  cases halp : alook fs "properties" with
  | none =>
    rw [halp] at h
    simp only [Option.getD] at h
    injection h with h
    subst h
    simp [refNewEntryVal, halp, alook]
  | some v =>
    rw [halp] at h
    cases v with
    | obj ps =>
      simp only [Option.getD] at h
      injection h with h
      subst h
      simp [refNewEntryVal, halp, Option.getD]
    | null => exact absurd h (by simp)
    | bool b' => exact absurd h (by simp)
    | num n => exact absurd h (by simp)
    | str s => exact absurd h (by simp)
    | arr xs => exact absurd h (by simp)

/-- Soundness of the reference-like field branch: non-empty target id, the
relationship type is the field's own type tag, and `is_subform` is exactly
`bool(properties.referenceNewEntry)` for `REFERENCE`, `None` otherwise. -/
theorem refBranch_sound (form_id : String) (form_name : JVal) (fs : List (String × JVal))
    (field_type field_name : JVal) (rels : List Relationship)
    (h : refBranch form_id form_name fs field_type field_name = .ok rels) :
    ∀ r ∈ rels,
      r.target_id ≠ "" ∧ field_type = .str r.relationship_type ∧
      (pyEqStr field_type "REFERENCE" = true →
        r.is_subform = some (jTruthy (refNewEntryVal (.obj fs)))) ∧
      (pyEqStr field_type "REFERENCE" = false → r.is_subform = none) := by
  simp only [refBranch] at h
  split at h
  case isTrue htr =>
    split at h
    case h_1 => exact absurd h (by simp)
    case h_2 target_name htn =>
      split at h
      case h_1 => exact absurd h (by simp)
      case h_2 is_subform hsub =>
        split at h
        case h_1 => exact absurd h (by simp)
        case h_2 r' hmk =>
          injection h with h
          subst h
          intro r hr
          simp only [List.mem_singleton] at hr
          subst hr
          unfold mkFieldRel at hmk
          split at hmk
          case h_1 sn rt tn fnm hsn hrt htn2 hfnm =>
            injection hmk with hmk
            subst hmk
            refine ⟨pyStr_ne_empty_of_truthy _ htr, vStr_ok hrt, ?_, ?_⟩
            · intro hpe
              rw [hpe, if_pos rfl] at hsub
              exact refSubform_ok hsub
            · intro hpe
              rw [hpe] at hsub
              simp only [Bool.false_eq_true, reduceIte] at hsub
              injection hsub with hsub
              exact hsub.symm
          case h_2 => exact absurd hmk (by simp)
  case isFalse =>
    injection h with h
    subst h
    intro r hr
    simp at hr

/-- Soundness of the workflow field branch: non-empty target id, the
relationship type is the field's own type tag, `is_subform` is `None`. -/
theorem wfBranch_sound (form_id : String) (form_name : JVal) (fs : List (String × JVal))
    (field_type field_name : JVal) (rels : List Relationship)
    (h : wfBranch form_id form_name fs field_type field_name = .ok rels) :
    ∀ r ∈ rels,
      r.target_id ≠ "" ∧ field_type = .str r.relationship_type ∧ r.is_subform = none := by
  simp only [wfBranch] at h
  split at h
  case h_1 ps hps =>
    split at h
    case isTrue htr =>
      split at h
      case h_1 => exact absurd h (by simp)
      case h_2 r' hmk =>
        injection h with h
        subst h
        intro r hr
        simp only [List.mem_singleton] at hr
        subst hr
        unfold mkFieldRel at hmk
        split at hmk
        case h_1 sn rt tn fnm hsn hrt htn2 hfnm =>
          injection hmk with hmk
          subst hmk
          exact ⟨pyStr_ne_empty_of_truthy _ htr, vStr_ok hrt, rfl⟩
        case h_2 => exact absurd hmk (by simp)
    case isFalse =>
      injection h with h
      subst h
      intro r hr
      simp at hr
  case h_2 => exact absurd h (by simp)

/-- Soundness of the task field branch: non-empty target id, relationship
type `TASK`, `is_subform` is `None`. -/
theorem taskBranch_sound (form_id : String) (form_name : JVal) (fs : List (String × JVal))
    (field_name : JVal) (rels : List Relationship)
    (h : taskBranch form_id form_name fs field_name = .ok rels) :
    ∀ r ∈ rels,
      r.target_id ≠ "" ∧ r.relationship_type = "TASK" ∧ r.is_subform = none := by
  simp only [taskBranch] at h
  split at h
  case h_1 ps hps =>
    split at h
    case isTrue htr =>
      split at h
      case h_1 => exact absurd h (by simp)
      case h_2 r' hmk =>
        injection h with h
        subst h
        intro r hr
        simp only [List.mem_singleton] at hr
        subst hr
        unfold mkFieldRel at hmk
        split at hmk
        case h_1 sn rt tn fnm hsn hrt htn2 hfnm =>
          injection hmk with hmk
          subst hmk
          have := vStr_ok hrt
          injection this with this
          exact ⟨pyStr_ne_empty_of_truthy _ htr, this.symm, rfl⟩
        case h_2 => exact absurd hmk (by simp)
    case isFalse =>
      injection h with h
      subst h
      intro r hr
      simp at hr
  case h_2 => exact absurd h (by simp)

/-- Everything the claims need about one field's processing: any emitted
relationship has a non-empty target id, a `REFERENCE` relationship carries
`is_subform = bool(properties.referenceNewEntry)`, and any non-`REFERENCE`
relationship carries `is_subform = None`. -/
theorem processField_sound (form_id : String) (form_name : JVal) (field_id : String)
    (field : JVal) (rels : List Relationship)
    (h : processField form_id form_name field_id field = .ok rels) :
    ∀ r ∈ rels,
      r.target_id ≠ "" ∧
      (r.relationship_type = "REFERENCE" →
        r.is_subform = some (jTruthy (refNewEntryVal field))) ∧
      (r.relationship_type ≠ "REFERENCE" → r.is_subform = none) := by
  cases field with
  | obj fs =>
    simp only [processField] at h
    split at h
    · intro r hr
      rcases refBranch_sound _ _ _ _ _ _ h r hr with ⟨ht, hft, hpos, hneg⟩
      refine ⟨ht, ?_, ?_⟩
      · intro hrt
        apply hpos
        rw [hft, hrt]
        simp [pyEqStr]
      · intro hrt
        apply hneg
        rw [hft]
        simp only [pyEqStr, decide_eq_false_iff_not]
        exact hrt
    · split at h
      · rename_i hc1 hc2
        intro r hr
        rcases wfBranch_sound _ _ _ _ _ _ h r hr with ⟨ht, hft, hsf⟩
        refine ⟨ht, ?_, fun _ => hsf⟩
        intro hrt
        rw [hft, hrt] at hc1
        simp [pyEqStr] at hc1
      · split at h
        · intro r hr
          rcases taskBranch_sound _ _ _ _ _ h r hr with ⟨ht, hrt, hsf⟩
          refine ⟨ht, ?_, fun _ => hsf⟩
          intro hrt2
          rw [hrt2] at hrt
          exact absurd hrt (by simp)
        · injection h with h
          subst h
          intro r hr
          simp at hr
  | null => exact absurd h (by simp [processField])
  | bool b => exact absurd h (by simp [processField])
  | num n => exact absurd h (by simp [processField])
  | str s => exact absurd h (by simp [processField])
  | arr xs => exact absurd h (by simp [processField])

/-- Every relationship produced by `extractFields` comes from the processing
of one of the fields. -/
theorem extractFields_mem (form_id : String) (form_name : JVal) :
    ∀ (fs : List (String × JVal)) (rels : List Relationship),
    extractFields form_id form_name fs = .ok rels → ∀ r ∈ rels,
    ∃ p frels, p ∈ fs ∧ processField form_id form_name p.1 p.2 = .ok frels ∧ r ∈ frels := by
  intro fs
  induction fs with
  | nil =>
    intro rels h r hr
    simp only [extractFields] at h
    injection h with h
    subst h
    simp at hr
  | cons p rest ih =>
    intro rels h r hr
    rcases p with ⟨field_id, field⟩
    simp only [extractFields] at h
    split at h
    case h_1 => exact absurd h (by simp)
    case h_2 rs hrs =>
      split at h
      case h_1 => exact absurd h (by simp)
      case h_2 rest' hrest =>
        injection h with h
        subst h
        rcases List.mem_append.mp hr with hl | hrt
        · exact ⟨(field_id, field), rs, List.mem_cons_self _ _, hrs, hl⟩
        · rcases ih rest' hrest r hrt with ⟨p, frels, hp, hok, hm⟩
          exact ⟨p, frels, List.mem_cons_of_mem _ hp, hok, hm⟩

/-- Every relationship produced by `extract_relationships` comes from the
processing of one field. -/
theorem extract_relationships_mem (form_definition : JVal) (container_id : Option String)
    (rels : List Relationship)
    (h : extract_relationships form_definition container_id = .ok rels) :
    ∀ r ∈ rels, ∃ fi fn fid f frels,
      processField fi fn fid f = .ok frels ∧ r ∈ frels := by
  intro r hr
  cases form_definition with
  | obj fds =>
    simp only [extract_relationships] at h
    split at h
    case h_1 fs hfs =>
      rcases extractFields_mem _ _ fs rels h r hr with ⟨p, frels, _, hok, hm⟩
      exact ⟨_, _, p.1, p.2, frels, hok, hm⟩
    case h_2 =>
      injection h with h
      subst h
      simp at hr
  | null => exact absurd h (by simp [extract_relationships])
  | bool b => exact absurd h (by simp [extract_relationships])
  | num n => exact absurd h (by simp [extract_relationships])
  | str s => exact absurd h (by simp [extract_relationships])
  | arr xs => exact absurd h (by simp [extract_relationships])

/-- C2: `is_subform` policy of `extract_relationships`. Any relationship it
emits whose `relationship_type` is not `REFERENCE` has `is_subform = None`;
and any relationship a `REFERENCE`-typed field emits carries
`is_subform = bool(properties.referenceNewEntry)` — `some true` exactly when
the flag is truthy, `some false` when it is absent or falsy, never `None`. -/
theorem extract_relationships_is_subform_policy :
    (∀ (form_definition : JVal) (container_id : Option String) (rels : List Relationship),
      extract_relationships form_definition container_id = .ok rels →
      ∀ r ∈ rels, r.relationship_type ≠ "REFERENCE" → r.is_subform = none) ∧
    (∀ (form_id : String) (form_name : JVal) (field_id : String) (field : JVal)
      (rels : List Relationship),
      processField form_id form_name field_id field = .ok rels →
      ∀ r ∈ rels, r.relationship_type = "REFERENCE" →
        r.is_subform = some (jTruthy (refNewEntryVal field))) := by
  constructor
  · intro fd cid rels h r hr hne
    rcases extract_relationships_mem fd cid rels h r hr with ⟨fi, fn, fid, f, frels, hok, hm⟩
    exact (processField_sound fi fn fid f frels hok r hm).2.2 hne
  · intro fi fn fid f rels h r hr href
    exact (processField_sound fi fn fid f rels h r hr).2.1 href

/-- C2 witness: a `REFERENCE` field with `referenceNewEntry = true` yields
`is_subform = some true`. -/
theorem extract_relationships_is_subform_policy_witness :
    ∀ r ∈ [c2Rel], r.relationship_type = "REFERENCE" →
      r.is_subform = some (jTruthy (refNewEntryVal c2Field)) :=
  extract_relationships_is_subform_policy.2 "1" (.str "F") "f1" c2Field [c2Rel] (by rfl)

/-! ### Per-action soundness of `extract_action_relationships` (claims C6, C7) -/

/-- Characterization of a successfully validated action relationship. -/
theorem mkActionRel_ok {source_id : String} {source_name : JVal} {target_id : String}
    {target_type relationship_type : String} {target_container_id : Option String}
    {action_id : String} {action_name trigger_type automatic : JVal} {r : Relationship}
    (h : mkActionRel source_id source_name target_id target_type relationship_type
      target_container_id action_id action_name trigger_type automatic = .ok r) :
    r.source_id = source_id ∧ r.target_id = target_id ∧ r.target_name = none ∧
    r.target_type = target_type ∧ r.relationship_type = relationship_type ∧
    r.field_name = none ∧ r.action_id = some action_id ∧
    r.target_container_id = target_container_id ∧ r.is_subform = none := by
  unfold mkActionRel at h
  split at h
  case h_1 sn an tr au hsn han htr hau =>
    injection h with h
    subst h
    exact ⟨rfl, rfl, rfl, rfl, rfl, rfl, rfl, rfl, rfl⟩
  case h_2 => exact absurd h (by simp)

/-- Any relationship emitted by the primary target-object-type branch has a
non-empty target id, no field name, and no `is_subform`. -/
theorem primaryRel_sound (source_id : String) (source_name : JVal)
    (pfs : List (String × JVal)) (action_id : String)
    (action_name trigger_type automatic : JVal) (rels : List Relationship)
    (h : primaryRel source_id source_name pfs action_id action_name trigger_type automatic
      = .ok rels) :
    ∀ r ∈ rels, r.target_id ≠ "" ∧ r.field_name = none ∧ r.is_subform = none := by
  simp only [primaryRel] at h
  split at h
  case h_1 relationship_type target_type target_id hspec =>
    split at h
    case isTrue htr =>
      split at h
      case h_1 => exact absurd h (by simp)
      case h_2 r' hmk =>
        injection h with h
        subst h
        intro r hr
        simp only [List.mem_singleton] at hr
        subst hr
        rcases mkActionRel_ok hmk with ⟨_, hti, _, _, _, hfn, _, _, hsf⟩
        rw [hti, hfn, hsf]
        exact ⟨pyStr_ne_empty_of_truthy _ htr, rfl, rfl⟩
    case isFalse =>
      injection h with h
      subst h
      intro r hr
      simp at hr
  case h_2 =>
    injection h with h
    subst h
    intro r hr
    simp at hr

/-- Any relationship emitted by the template/plan launch branch has a
non-empty target id, no field name, and no `is_subform`. -/
theorem launchRel_sound (source_id : String) (source_name : JVal)
    (pfs : List (String × JVal)) (action_id : String)
    (action_name trigger_type automatic : JVal) (rels : List Relationship)
    (h : launchRel source_id source_name pfs action_id action_name trigger_type automatic
      = .ok rels) :
    ∀ r ∈ rels, r.target_id ≠ "" ∧ r.field_name = none ∧ r.is_subform = none := by
  simp only [launchRel] at h
  split at h
  case isTrue =>
    split at h
    case isTrue htr =>
      split at h
      case h_1 => exact absurd h (by simp)
      case h_2 r' hmk =>
        injection h with h
        subst h
        intro r hr
        simp only [List.mem_singleton] at hr
        subst hr
        rcases mkActionRel_ok hmk with ⟨_, hti, _, _, _, hfn, _, _, hsf⟩
        rw [hti, hfn, hsf]
        exact ⟨pyStr_ne_empty_of_truthy _ htr, rfl, rfl⟩
    case isFalse =>
      injection h with h
      subst h
      intro r hr
      simp at hr
  case isFalse =>
    split at h
    case isTrue =>
      split at h
      case isTrue htr =>
        split at h
        case h_1 => exact absurd h (by simp)
        case h_2 r' hmk =>
          injection h with h
          subst h
          intro r hr
          simp only [List.mem_singleton] at hr
          subst hr
          rcases mkActionRel_ok hmk with ⟨_, hti, _, _, _, hfn, _, _, hsf⟩
          rw [hti, hfn, hsf]
          exact ⟨pyStr_ne_empty_of_truthy _ htr, rfl, rfl⟩
      case isFalse =>
        injection h with h
        subst h
        intro r hr
        simp at hr
    case isFalse =>
      injection h with h
      subst h
      intro r hr
      simp at hr

/-- Any relationship emitted for one action has a non-empty target id, no
field name, and no `is_subform`. -/
theorem processAction_sound (source_id : String) (source_name : JVal) (action : JVal)
    (rels : List Relationship)
    (h : processAction source_id source_name action = .ok rels) :
    ∀ r ∈ rels, r.target_id ≠ "" ∧ r.field_name = none ∧ r.is_subform = none := by
  cases action with
  | obj afs =>
    simp only [processAction] at h
    split at h
    case isTrue =>
      injection h with h
      subst h
      intro r hr
      simp at hr
    case isFalse =>
      split at h
      case h_1 pfs hpfs =>
        split at h
        case isTrue =>
          injection h with h
          subst h
          intro r hr
          simp at hr
        case isFalse =>
          split at h
          case h_1 => exact absurd h (by simp)
          case h_2 rels1 h1 =>
            split at h
            case h_1 => exact absurd h (by simp)
            case h_2 rels2 h2 =>
              injection h with h
              subst h
              intro r hr
              rcases List.mem_append.mp hr with hm | hm
              · exact primaryRel_sound _ _ _ _ _ _ _ _ h1 r hm
              · exact launchRel_sound _ _ _ _ _ _ _ _ h2 r hm
      case h_2 =>
        injection h with h
        subst h
        intro r hr
        simp at hr
  | null => exact absurd h (by simp [processAction])
  | bool b => exact absurd h (by simp [processAction])
  | num n => exact absurd h (by simp [processAction])
  | str s => exact absurd h (by simp [processAction])
  | arr xs => exact absurd h (by simp [processAction])

/-- Lift `processAction_sound` over an action list. -/
theorem processActions_sound (source_id : String) (source_name : JVal) :
    ∀ (actions : List JVal) (rels : List Relationship),
    processActions source_id source_name actions = .ok rels →
    ∀ r ∈ rels, r.target_id ≠ "" ∧ r.field_name = none ∧ r.is_subform = none := by
  intro actions
  induction actions with
  | nil =>
    intro rels h r hr
    simp only [processActions] at h
    injection h with h
    subst h
    simp at hr
  | cons a rest ih =>
    intro rels h r hr
    simp only [processActions] at h
    split at h
    case h_1 => exact absurd h (by simp)
    case h_2 rs hrs =>
      split at h
      case h_1 => exact absurd h (by simp)
      case h_2 rest' hrest =>
        injection h with h
        subst h
        rcases List.mem_append.mp hr with hm | hm
        · exact processAction_sound _ _ _ _ hrs r hm
        · exact ih rest' hrest r hm

/-- `extract_relationships` only emits relationships with non-empty target id. -/
theorem extract_relationships_target_nonempty (form_definition : JVal)
    (container_id : Option String) (rels : List Relationship)
    (h : extract_relationships form_definition container_id = .ok rels) :
    ∀ r ∈ rels, r.target_id ≠ "" := by
  intro r hr
  rcases extract_relationships_mem _ _ _ h r hr with ⟨fi, fn, fid, f, frels, hok, hm⟩
  exact (processField_sound fi fn fid f frels hok r hm).1

/-- `extract_action_relationships` only emits relationships with non-empty
target id. -/
theorem extract_action_relationships_target_nonempty (source_id : String)
    (source_name : JVal) (source_type : String) (actions : List JVal)
    (rels : List Relationship)
    (h : extract_action_relationships source_id source_name source_type actions = .ok rels) :
    ∀ r ∈ rels, r.target_id ≠ "" := by
  intro r hr
  exact (processActions_sound source_id source_name actions rels h r hr).1

/-- The form half of the gather loop only yields non-empty target ids. -/
theorem gatherForms_target_nonempty (actions : Option (List (String × List JVal)))
    (container_id : Option String) :
    ∀ (forms : List JVal) (rels : List Relationship),
    gatherForms actions container_id forms = .ok rels →
    ∀ r ∈ rels, r.target_id ≠ "" := by
  intro forms
  induction forms with
  | nil =>
    intro rels h r hr
    simp only [gatherForms] at h
    injection h with h
    subst h
    simp at hr
  | cons form rest ih =>
    intro rels h r hr
    simp only [gatherForms] at h
    split at h
    case h_1 => exact absurd h (by simp)
    case h_2 frels hf =>
      split at h
      case h_1 => exact absurd h (by simp)
      case h_2 arels ha =>
        split at h
        case h_1 => exact absurd h (by simp)
        case h_2 rest' hrest =>
          injection h with h
          subst h
          rcases List.mem_append.mp hr with hm | hm
          · rcases List.mem_append.mp hm with hm1 | hm2
            · exact extract_relationships_target_nonempty _ _ _ hf r hm1
            · -- action relationships of this form
              by_cases hat : actionsTruthy actions = true
              · rw [if_pos hat] at ha
                cases form with
                | obj fds =>
                  simp only [formActionRels] at ha
                  split at ha
                  · injection ha with ha
                    subst ha
                    simp at hm2
                  · exact extract_action_relationships_target_nonempty _ _ _ _ _ ha r hm2
                | null => exact absurd ha (by simp [formActionRels])
                | bool b => exact absurd ha (by simp [formActionRels])
                | num n => exact absurd ha (by simp [formActionRels])
                | str s => exact absurd ha (by simp [formActionRels])
                | arr xs => exact absurd ha (by simp [formActionRels])
              · rw [if_neg hat] at ha
                injection ha with ha
                subst ha
                simp at hm2
          · exact ih rest' hrest r hm

/-- The task-type half of the gather loop only yields non-empty target ids. -/
theorem gatherTaskTypes_target_nonempty (actions : Option (List (String × List JVal)))
    (container_id : Option String) :
    ∀ (tts : List (String × JVal)) (rels : List Relationship),
    gatherTaskTypes actions container_id tts = .ok rels →
    ∀ r ∈ rels, r.target_id ≠ "" := by
  intro tts
  induction tts with
  | nil =>
    intro rels h r hr
    simp only [gatherTaskTypes] at h
    injection h with h
    subst h
    simp at hr
  | cons p rest ih =>
    intro rels h r hr
    rcases p with ⟨task_type_id, task_type⟩
    simp only [gatherTaskTypes] at h
    split at h
    case h_1 => exact absurd h (by simp)
    case h_2 frels hf =>
      split at h
      case h_1 => exact absurd h (by simp)
      case h_2 arels ha =>
        split at h
        case h_1 => exact absurd h (by simp)
        case h_2 rest' hrest =>
          injection h with h
          subst h
          rcases List.mem_append.mp hr with hm | hm
          · rcases List.mem_append.mp hm with hm1 | hm2
            · exact extract_relationships_target_nonempty _ _ _ hf r hm1
            · by_cases hat : actionsTruthy actions = true
              · rw [if_pos hat] at ha
                cases task_type with
                | obj fds =>
                  simp only [taskTypeActionRels] at ha
                  split at ha
                  · injection ha with ha
                    subst ha
                    simp at hm2
                  · exact extract_action_relationships_target_nonempty _ _ _ _ _ ha r hm2
                | null => exact absurd ha (by simp [taskTypeActionRels])
                | bool b => exact absurd ha (by simp [taskTypeActionRels])
                | num n => exact absurd ha (by simp [taskTypeActionRels])
                | str s => exact absurd ha (by simp [taskTypeActionRels])
                | arr xs => exact absurd ha (by simp [taskTypeActionRels])
              · rw [if_neg hat] at ha
                injection ha with ha
                subst ha
                simp at hm2
          · exact ih rest' hrest r hm

/-- C7: every relationship returned by `extract_relationships`,
`extract_action_relationships` and `analyze_solution` has a non-empty
`target_id`, whatever the input. -/
theorem returned_relationships_have_nonempty_target_id :
    (∀ (form_definition : JVal) (container_id : Option String) (rels : List Relationship),
      extract_relationships form_definition container_id = .ok rels →
      ∀ r ∈ rels, r.target_id ≠ "") ∧
    (∀ (source_id : String) (source_name : JVal) (source_type : String)
      (actions : List JVal) (rels : List Relationship),
      extract_action_relationships source_id source_name source_type actions = .ok rels →
      ∀ r ∈ rels, r.target_id ≠ "") ∧
    (∀ (form_definitions : List JVal) (actions : Option (List (String × List JVal)))
      (container_id : Option String) (task_types : Option (List (String × JVal)))
      (rels : List Relationship),
      analyze_solution form_definitions actions container_id task_types = .ok rels →
      ∀ r ∈ rels, r.target_id ≠ "") := by
  refine ⟨extract_relationships_target_nonempty,
    extract_action_relationships_target_nonempty, ?_⟩
  intro forms actions container_id task_types rels h r hr
  unfold analyze_solution at h
  cases hg : gatherAll forms actions container_id task_types with
  | error e => rw [hg] at h; exact absurd h (by simp [Except.map])
  | ok all =>
    rw [hg] at h
    simp only [Except.map] at h
    injection h with h
    subst h
    have hmem : r ∈ all := (dedupGo_subset all [] r hr).1
    unfold gatherAll at hg
    split at hg
    case h_1 => exact absurd hg (by simp)
    case h_2 rs1 h1 =>
      split at hg
      case h_1 => exact absurd hg (by simp)
      case h_2 rs2 h2 =>
        injection hg with hg
        subst hg
        rcases List.mem_append.mp hmem with hm | hm
        · exact gatherForms_target_nonempty _ _ _ _ h1 r hm
        · by_cases htt : taskTypesTruthy task_types = true
          · rw [if_pos htt] at h2
            exact gatherTaskTypes_target_nonempty _ _ _ _ h2 r hm
          · rw [if_neg htt] at h2
            injection h2 with h2
            subst h2
            simp at hm

/-- C7 witness: the analysis of `c1Form` returns one relationship and its
target id is non-empty. -/
theorem returned_relationships_have_nonempty_target_id_witness :
    ∀ r ∈ [c1Rel], r.target_id ≠ "" :=
  returned_relationships_have_nonempty_target_id.2.2 [c1Form] none none none [c1Rel] (by rfl)

/-! ### Claim C3: totality of `extract_relationships` -/

/-- C3 counterexample: `extract_relationships` DOES raise for a malformed
input — a fields mapping whose entry is not a mapping makes `field.get`
raise `AttributeError`, so extraction does not continue with defaults. -/
theorem extract_relationships_raises_on_nondict_field :
    extract_relationships c3BadForm none = .error .attributeError := by rfl

theorem vOptStr_getD_null_ok {o : Option JVal} (h : wfOptStrVal o = true) :
    ∃ x, vOptStr (o.getD .null) = .ok x := by
  cases o with
  | none => exact ⟨none, rfl⟩
  | some v =>
    cases v with
    | null => exact ⟨none, rfl⟩
    | str s => exact ⟨some s, rfl⟩
    | bool b => exact absurd h (by simp [wfOptStrVal])
    | num n => exact absurd h (by simp [wfOptStrVal])
    | arr xs => exact absurd h (by simp [wfOptStrVal])
    | obj fs => exact absurd h (by simp [wfOptStrVal])

theorem vOptStr_getD_str_ok {o : Option JVal} (d : String) (h : wfOptStrVal o = true) :
    ∃ x, vOptStr (o.getD (.str d)) = .ok x := by
  cases o with
  | none => exact ⟨some d, rfl⟩
  | some v =>
    cases v with
    | null => exact ⟨none, rfl⟩
    | str s => exact ⟨some s, rfl⟩
    | bool b => exact absurd h (by simp [wfOptStrVal])
    | num n => exact absurd h (by simp [wfOptStrVal])
    | arr xs => exact absurd h (by simp [wfOptStrVal])
    | obj fs => exact absurd h (by simp [wfOptStrVal])

theorem refSubform_total {fs : List (String × JVal)} (hp : propsOkB fs = true) :
    ∃ b, refSubform fs = .ok b := by
  unfold propsOkB at hp
  unfold refSubform
  cases halp : alook fs "properties" with
  | none => exact ⟨_, rfl⟩
  | some v =>
    rw [halp] at hp
    cases v with
    | obj ps => exact ⟨_, rfl⟩
    | null => exact absurd hp (by simp)
    | bool b => exact absurd hp (by simp)
    | num n => exact absurd hp (by simp)
    | str s => exact absurd hp (by simp)
    | arr xs => exact absurd hp (by simp)

theorem targetName_total {fs : List (String × JVal)} (hs : sourceFormOkB fs = true) :
    ∃ tn, (if jTruthy ((alook fs "sourceForm").getD (.obj [])) = true
           then jGetAttr ((alook fs "sourceForm").getD (.obj [])) "name"
           else Except.ok JVal.null) = .ok tn ∧ ∃ x, vOptStr tn = .ok x := by
  unfold sourceFormOkB at hs
  cases hal : alook fs "sourceForm" with
  | none =>
    exact ⟨.null, by simp [jTruthy], ⟨none, rfl⟩⟩
  | some v =>
    rw [hal] at hs
    by_cases htv : jTruthy v = true
    · simp only [htv, if_true] at hs
      cases v with
      | obj gs =>
        simp only [Option.getD]
        rw [if_pos htv]
        exact ⟨_, rfl, vOptStr_getD_null_ok hs⟩
      | null => exact absurd hs (by simp)
      | bool b => exact absurd hs (by simp)
      | num n => exact absurd hs (by simp)
      | str s => exact absurd hs (by simp)
      | arr xs => exact absurd hs (by simp)
    · simp only [Option.getD]
      rw [if_neg htv]
      exact ⟨.null, rfl, ⟨none, rfl⟩⟩

theorem mkFieldRel_total (source_id sn target_id : String) (tn : JVal) (tt rt : String)
    (fnm : JVal) (tcid : Option String) (isf : Option Bool)
    (htn : ∃ x, vOptStr tn = .ok x) (hfn : ∃ x, vOptStr fnm = .ok x) :
    ∃ r, mkFieldRel source_id (.str sn) target_id tn tt (.str rt) fnm tcid isf = .ok r := by
  obtain ⟨x, hx⟩ := htn
  obtain ⟨y, hy⟩ := hfn
  unfold mkFieldRel
  rw [show vStr (JVal.str sn) = .ok sn from rfl, show vStr (JVal.str rt) = .ok rt from rfl,
    hx, hy]
  exact ⟨_, rfl⟩

theorem refBranch_total (form_id sn : String) (fs : List (String × JVal)) (rt : String)
    (fnm : JVal) (hp : propsOkB fs = true) (hs : sourceFormOkB fs = true)
    (hfn : ∃ x, vOptStr fnm = .ok x) :
    ∃ rs, refBranch form_id (.str sn) fs (.str rt) fnm = .ok rs := by
  simp only [refBranch]
  by_cases hsfi : jTruthy ((alook fs "sourceFormId").getD JVal.null) = true
  · rw [if_pos hsfi]
    obtain ⟨tn, htn, hvtn⟩ := targetName_total hs
    rw [htn]
    by_cases hpe : pyEqStr (JVal.str rt) "REFERENCE" = true
    · obtain ⟨b, hb⟩ := refSubform_total hp
      obtain ⟨r, hr⟩ := mkFieldRel_total form_id sn
        (pyStr ((alook fs "sourceFormId").getD JVal.null)) tn "form" rt fnm none b hvtn hfn
      refine ⟨[r], ?_⟩
      simp only [hpe, if_true, hb, hr]
    · obtain ⟨r, hr⟩ := mkFieldRel_total form_id sn
        (pyStr ((alook fs "sourceFormId").getD JVal.null)) tn "form" rt fnm none none hvtn hfn
      refine ⟨[r], ?_⟩
      rw [Bool.not_eq_true] at hpe
      simp only [hpe, Bool.false_eq_true, reduceIte, hr]
  · rw [if_neg hsfi]
    exact ⟨[], rfl⟩

theorem wfBranch_total (form_id sn : String) (fs : List (String × JVal)) (rt : String)
    (fnm : JVal) (hp : propsOkB fs = true) (hfn : ∃ x, vOptStr fnm = .ok x) :
    ∃ rs, wfBranch form_id (.str sn) fs (.str rt) fnm = .ok rs := by
  simp only [wfBranch]
  unfold propsOkB at hp
  cases halp : alook fs "properties" with
  | none =>
    by_cases hpid : jTruthy ((alook ([] : List (String × JVal)) "processId").getD JVal.null) = true
    · obtain ⟨r, hr⟩ := mkFieldRel_total form_id sn
        (pyStr ((alook ([] : List (String × JVal)) "processId").getD JVal.null))
        ((alook ([] : List (String × JVal)) "processName").getD JVal.null)
        "workflow" rt fnm none none
        (vOptStr_getD_null_ok (by simp [alook, wfOptStrVal])) hfn
      refine ⟨[r], ?_⟩
      simp only [Option.getD] at hpid hr ⊢
      simp only [hpid, if_true, hr]
    · refine ⟨[], ?_⟩
      simp only [Option.getD] at hpid ⊢
      simp [hpid]
  | some v =>
    rw [halp] at hp
    cases v with
    | obj ps =>
      by_cases hpid : jTruthy ((alook ps "processId").getD JVal.null) = true
      · obtain ⟨r, hr⟩ := mkFieldRel_total form_id sn
          (pyStr ((alook ps "processId").getD JVal.null))
          ((alook ps "processName").getD JVal.null)
          "workflow" rt fnm none none
          (vOptStr_getD_null_ok hp) hfn
        refine ⟨[r], ?_⟩
        simp only [Option.getD] at hpid hr ⊢
        simp only [hpid, if_true, hr]
      · refine ⟨[], ?_⟩
        simp only [Option.getD] at hpid ⊢
        simp [hpid]
    | null => exact absurd hp (by simp)
    | bool b => exact absurd hp (by simp)
    | num n => exact absurd hp (by simp)
    | str s => exact absurd hp (by simp)
    | arr xs => exact absurd hp (by simp)

theorem taskBranch_total (form_id sn : String) (fs : List (String × JVal))
    (fnm : JVal) (hp : propsOkB fs = true) (hfn : ∃ x, vOptStr fnm = .ok x) :
    ∃ rs, taskBranch form_id (.str sn) fs fnm = .ok rs := by
  simp only [taskBranch]
  unfold propsOkB at hp
  cases halp : alook fs "properties" with
  | none =>
    by_cases htid : jTruthy ((alook ([] : List (String × JVal)) "taskTypeFilter").getD JVal.null) = true
    · obtain ⟨r, hr⟩ := mkFieldRel_total form_id sn
        (pyStr ((alook ([] : List (String × JVal)) "taskTypeFilter").getD JVal.null)) JVal.null
        "task_type" "TASK" fnm
        (if jTruthy ((alook ([] : List (String × JVal)) "taskTypeContainer").getD JVal.null) = true
         then some (pyStr ((alook ([] : List (String × JVal)) "taskTypeContainer").getD JVal.null))
         else none) none
        ⟨none, rfl⟩ hfn
      refine ⟨[r], ?_⟩
      simp only [Option.getD] at htid hr ⊢
      simp only [htid, if_true, hr]
    · refine ⟨[], ?_⟩
      simp only [Option.getD] at htid ⊢
      simp [htid]
  | some v =>
    rw [halp] at hp
    cases v with
    | obj ps =>
      by_cases htid : jTruthy ((alook ps "taskTypeFilter").getD JVal.null) = true
      · obtain ⟨r, hr⟩ := mkFieldRel_total form_id sn
          (pyStr ((alook ps "taskTypeFilter").getD JVal.null)) JVal.null
          "task_type" "TASK" fnm
          (if jTruthy ((alook ps "taskTypeContainer").getD JVal.null) = true
           then some (pyStr ((alook ps "taskTypeContainer").getD JVal.null))
           else none) none
          ⟨none, rfl⟩ hfn
        refine ⟨[r], ?_⟩
        simp only [Option.getD] at htid hr ⊢
        simp only [htid, if_true, hr]
      · refine ⟨[], ?_⟩
        simp only [Option.getD] at htid ⊢
        simp [htid]
    | null => exact absurd hp (by simp)
    | bool b => exact absurd hp (by simp)
    | num n => exact absurd hp (by simp)
    | str s => exact absurd hp (by simp)
    | arr xs => exact absurd hp (by simp)

theorem pyEqStr_true {v : JVal} {s : String} (h : pyEqStr v s = true) : v = .str s := by
  cases v <;> simp [pyEqStr] at h
  rw [h]

theorem processField_total (form_id sn field_id : String) (f : JVal)
    (hf : WFField f = true) :
    ∃ rs, processField form_id (.str sn) field_id f = .ok rs := by
  cases f with
  | obj fs =>
    have hf' : (wfOptStrVal (alook fs "name") = true ∧ propsOkB fs = true) ∧
        sourceFormOkB fs = true := by
      unfold WFField at hf
      simp only [Bool.and_eq_true] at hf
      exact hf
    obtain ⟨⟨hn, hp⟩, hs⟩ := hf'
    have hfn : ∃ x, vOptStr ((alook fs "name").getD (.str ("Field " ++ field_id))) = .ok x :=
      vOptStr_getD_str_ok _ hn
    simp only [processField]
    by_cases hc1 : (pyEqStr ((alook fs "fieldType").getD (.str "")) "REFERENCE" ||
        pyEqStr ((alook fs "fieldType").getD (.str "")) "FORM_ENTRY" ||
        pyEqStr ((alook fs "fieldType").getD (.str "")) "LOOKUP") = true
    · rw [if_pos hc1]
      have hex : ∃ rt, (alook fs "fieldType").getD (.str "") = .str rt := by
        cases hft : (alook fs "fieldType").getD (.str "") with
        | str t => exact ⟨t, rfl⟩
        | null => rw [hft] at hc1; simp [pyEqStr] at hc1
        | bool b => rw [hft] at hc1; simp [pyEqStr] at hc1
        | num n => rw [hft] at hc1; simp [pyEqStr] at hc1
        | arr xs => rw [hft] at hc1; simp [pyEqStr] at hc1
        | obj l => rw [hft] at hc1; simp [pyEqStr] at hc1
      obtain ⟨rt, hrt⟩ := hex
      rw [hrt]
      exact refBranch_total form_id sn fs rt _ hp hs hfn
    · rw [if_neg hc1]
      by_cases hc2 : (pyEqStr ((alook fs "fieldType").getD (.str "")) "WORKFLOW" ||
          pyEqStr ((alook fs "fieldType").getD (.str "")) "WORKFLOW_LOOKUP") = true
      · rw [if_pos hc2]
        have hex : ∃ rt, (alook fs "fieldType").getD (.str "") = .str rt := by
          cases hft : (alook fs "fieldType").getD (.str "") with
          | str t => exact ⟨t, rfl⟩
          | null => rw [hft] at hc2; simp [pyEqStr] at hc2
          | bool b => rw [hft] at hc2; simp [pyEqStr] at hc2
          | num n => rw [hft] at hc2; simp [pyEqStr] at hc2
          | arr xs => rw [hft] at hc2; simp [pyEqStr] at hc2
          | obj l => rw [hft] at hc2; simp [pyEqStr] at hc2
        obtain ⟨rt, hrt⟩ := hex
        rw [hrt]
        exact wfBranch_total form_id sn fs rt _ hp hfn
      · rw [if_neg hc2]
        by_cases hc3 : pyEqStr ((alook fs "fieldType").getD (.str "")) "TASK" = true
        · rw [if_pos hc3]
          exact taskBranch_total form_id sn fs _ hp hfn
        · rw [Bool.not_eq_true] at hc3
          rw [hc3]
          simp only [Bool.false_eq_true, reduceIte]
          exact ⟨[], rfl⟩
  | null => exact absurd hf (by simp [WFField])
  | bool b => exact absurd hf (by simp [WFField])
  | num n => exact absurd hf (by simp [WFField])
  | str s => exact absurd hf (by simp [WFField])
  | arr xs => exact absurd hf (by simp [WFField])

theorem extractFields_total (form_id sn : String) :
    ∀ (fs : List (String × JVal)), (∀ p ∈ fs, WFField p.2 = true) →
    ∃ rs, extractFields form_id (.str sn) fs = .ok rs := by
  intro fs
  induction fs with
  | nil => intro _; exact ⟨[], rfl⟩
  | cons p rest ih =>
    intro hall
    rcases p with ⟨field_id, f⟩
    obtain ⟨rs, hrs⟩ := processField_total form_id sn field_id f
      (hall _ (List.mem_cons_self _ _))
    obtain ⟨rest', hrest⟩ := ih (fun q hq => hall q (List.mem_cons_of_mem _ hq))
    refine ⟨rs ++ rest', ?_⟩
    simp only [extractFields]
    rw [hrs, hrest]

/-- C3 amended: `extract_relationships` never raises PROVIDED the form record
is well-formed — every entry of the fields mapping is a mapping whose name is
a string or `None`, whose `properties` value (when present) is a mapping with
a string-or-`None` `processName`, whose truthy `sourceForm` value is a mapping
with a string-or-`None` name, and the form's own name (when present) is a
string. Under those conditions, missing data degrades to defaults or the field
is skipped; outside them (see the counterexample) the function raises. -/
theorem extract_relationships_total_on_wf (form_definition : JVal)
    (container_id : Option String) (h : WFForm form_definition = true) :
    ∃ rels, extract_relationships form_definition container_id = .ok rels := by
  cases form_definition with
  | obj fds =>
    have h' : (match alook fds "name" with
        | none => true
        | some (.str _) => true
        | some _ => false) = true ∧
        (match alook fds "fields" with
        | some (.obj l) => l.all (fun p => WFField p.2)
        | _ => true) = true := by
      unfold WFForm at h
      simp only [Bool.and_eq_true] at h
      exact h
    obtain ⟨hname, hfields⟩ := h'
    have hsn : ∃ sn, (alook fds "name").getD (.str "Unknown") = .str sn := by
      cases hal : alook fds "name" with
      | none => exact ⟨"Unknown", rfl⟩
      | some v =>
        rw [hal] at hname
        cases v with
        | str s => exact ⟨s, rfl⟩
        | null => exact absurd hname (by simp)
        | bool b => exact absurd hname (by simp)
        | num n => exact absurd hname (by simp)
        | arr xs => exact absurd hname (by simp)
        | obj l => exact absurd hname (by simp)
    obtain ⟨sn, hsneq⟩ := hsn
    simp only [extract_relationships]
    rw [hsneq]
    cases hal : alook fds "fields" with
    | none =>
      simp only [Option.getD]
      exact ⟨[], rfl⟩
    | some v =>
      rw [hal] at hfields
      cases v with
      | obj l =>
        simp only [Option.getD]
        exact extractFields_total _ sn l (by
          intro p hp
          exact List.all_eq_true.mp hfields p hp)
      | null => exact ⟨[], rfl⟩
      | bool b => exact ⟨[], rfl⟩
      | num n => exact ⟨[], rfl⟩
      | str s => exact ⟨[], rfl⟩
      | arr xs => exact ⟨[], rfl⟩
  | null => exact absurd h (by simp [WFForm])
  | bool b => exact absurd h (by simp [WFForm])
  | num n => exact absurd h (by simp [WFForm])
  | str s => exact absurd h (by simp [WFForm])
  | arr xs => exact absurd h (by simp [WFForm])

/-- C3 amended witness: a well-formed form (a `REFERENCE` field carrying only
a target id) extracts without raising. -/
theorem extract_relationships_total_on_wf_witness :
    ∃ rels, extract_relationships
      (.obj [("id", .str "1"), ("name", .str "A"), ("fields", .obj
        [("f1", .obj [("fieldType", .str "REFERENCE"), ("sourceFormId", .str "2")])])])
      none = .ok rels :=
  extract_relationships_total_on_wf _ none (by decide)

/-! ### Claims C4 and C6: the action branches -/

theorem pyEqInt_num {v : JVal} {n : Int} (h : pyEqInt v n = true) (hn0 : n ≠ 0)
    (hn1 : n ≠ 1) : v = .num n := by
  cases v with
  | num m => simp [pyEqInt] at h; rw [h]
  | bool b =>
    cases b with
    | false => simp [pyEqInt] at h; exact absurd h.symm hn0
    | true => simp [pyEqInt] at h; exact absurd h.symm hn1
  | null => simp [pyEqInt] at h
  | str s => simp [pyEqInt] at h
  | arr xs => simp [pyEqInt] at h
  | obj fs => simp [pyEqInt] at h

/-- An action relationship can always be constructed when the action's
metadata values validate. -/
theorem mkActionRel_total (source_id : String) (source_name : JVal) (target_id : String)
    (tt rt : String) (tcid : Option String) (action_id : String)
    (action_name trigger_type automatic : JVal)
    (hsn : ∃ x, vStr source_name = .ok x) (han : ∃ x, vOptStr action_name = .ok x)
    (htr : ∃ x, vOptStr trigger_type = .ok x) (hau : ∃ x, vOptBool automatic = .ok x) :
    ∃ r, mkActionRel source_id source_name target_id tt rt tcid action_id action_name
      trigger_type automatic = .ok r := by
  obtain ⟨a, ha⟩ := hsn
  obtain ⟨b, hb⟩ := han
  obtain ⟨c, hc⟩ := htr
  obtain ⟨d, hd⟩ := hau
  unfold mkActionRel
  rw [ha, hb, hc, hd]
  exact ⟨_, rfl⟩

/-- The validated metadata of a constructed action relationship, for relating
two relationships built from the same action. -/
theorem mkActionRel_ok_meta {source_id : String} {source_name : JVal} {target_id : String}
    {target_type relationship_type : String} {target_container_id : Option String}
    {action_id : String} {action_name trigger_type automatic : JVal} {r : Relationship}
    (h : mkActionRel source_id source_name target_id target_type relationship_type
      target_container_id action_id action_name trigger_type automatic = .ok r) :
    vStr source_name = .ok r.source_name ∧ vOptStr action_name = .ok r.action_name ∧
    vOptStr trigger_type = .ok r.trigger_type ∧ vOptBool automatic = .ok r.automatic := by
  unfold mkActionRel at h
  split at h
  case h_1 sn an tr au hsn han htr hau =>
    injection h with h
    subst h
    exact ⟨hsn, han, htr, hau⟩
  case h_2 => exact absurd h (by simp)

/-- The primary target-object-type branch never raises when the action's
metadata values validate. -/
theorem primaryRel_total (source_id : String) (source_name : JVal)
    (pfs : List (String × JVal)) (action_id : String)
    (action_name trigger_type automatic : JVal)
    (hsn : ∃ x, vStr source_name = .ok x)
    (han : ∃ x, vOptStr action_name = .ok x)
    (htr : ∃ x, vOptStr trigger_type = .ok x)
    (hau : ∃ x, vOptBool automatic = .ok x) :
    ∃ rels, primaryRel source_id source_name pfs action_id action_name trigger_type
      automatic = .ok rels := by
  simp only [primaryRel]
  by_cases h5 : pyEqInt ((alook pfs "targetObjectType").getD JVal.null) 5 = true
  · simp only [h5, if_true]
    by_cases htid : jTruthy ((alook pfs "targetForm").getD JVal.null) = true
    · obtain ⟨r, hr⟩ := mkActionRel_total source_id source_name
        (pyStr ((alook pfs "targetForm").getD JVal.null)) "form" "ACTION_CREATES_ENTRY"
        none action_id action_name trigger_type automatic hsn han htr hau
      refine ⟨[r], ?_⟩
      simp only [htid, if_true]
      simp only [String.reduceEq, reduceIte, hr]
    · refine ⟨[], ?_⟩
      simp [htid]
  · simp only [h5, Bool.false_eq_true, reduceIte]
    by_cases h9 : pyEqInt ((alook pfs "targetObjectType").getD JVal.null) 9 = true
    · simp only [h9, if_true]
      by_cases htid : jTruthy ((alook pfs "targetProcess").getD JVal.null) = true
      · obtain ⟨r, hr⟩ := mkActionRel_total source_id source_name
          (pyStr ((alook pfs "targetProcess").getD JVal.null)) "workflow"
          "ACTION_INVOKES_WORKFLOW" none action_id action_name trigger_type automatic
          hsn han htr hau
        refine ⟨[r], ?_⟩
        simp only [htid, if_true]
        simp only [String.reduceEq, reduceIte, hr]
      · refine ⟨[], ?_⟩
        simp [htid]
    · simp only [h9, Bool.false_eq_true, reduceIte]
      by_cases h3 : pyEqInt ((alook pfs "targetObjectType").getD JVal.null) 3 = true
      · simp only [h3, if_true]
        by_cases htid : jTruthy ((alook pfs "targetTaskType").getD JVal.null) = true
        · obtain ⟨r, hr⟩ := mkActionRel_total source_id source_name
            (pyStr ((alook pfs "targetTaskType").getD JVal.null)) "task_type"
            "ACTION_CREATES_TASK"
            (if jTruthy (pyOr (pyOr ((alook pfs "targetTaskTypeContainer").getD JVal.null)
                ((alook pfs "taskTypeContainer").getD JVal.null))
                ((alook pfs "targetContainer").getD JVal.null)) = true
             then some (pyStr (pyOr (pyOr ((alook pfs "targetTaskTypeContainer").getD JVal.null)
                ((alook pfs "taskTypeContainer").getD JVal.null))
                ((alook pfs "targetContainer").getD JVal.null)))
             else none)
            action_id action_name trigger_type automatic hsn han htr hau
          refine ⟨[r], ?_⟩
          simp only [htid, if_true]
          simp only [String.reduceEq, reduceIte, hr]
        · refine ⟨[], ?_⟩
          simp [htid]
      · simp only [h3, Bool.false_eq_true, reduceIte]
        exact ⟨[], rfl⟩

/-- The launch branch emits exactly one launch relationship whenever
`targetContainerType` is 5 (template) or 7 (plan) and `targetContainerId` is
truthy, and the action's metadata values validate. -/
theorem launchRel_emits (source_id : String) (source_name : JVal)
    (pfs : List (String × JVal)) (action_id : String)
    (action_name trigger_type automatic : JVal) (lt ltt : String)
    (hl : (pyEqInt ((alook pfs "targetContainerType").getD JVal.null) 5 = true ∧
            lt = "ACTION_LAUNCHES_TEMPLATE" ∧ ltt = "template") ∨
          (pyEqInt ((alook pfs "targetContainerType").getD JVal.null) 7 = true ∧
            lt = "ACTION_LAUNCHES_PLAN" ∧ ltt = "plan"))
    (hcid : jTruthy ((alook pfs "targetContainerId").getD JVal.null) = true)
    (hsn : ∃ x, vStr source_name = .ok x)
    (han : ∃ x, vOptStr action_name = .ok x)
    (htr : ∃ x, vOptStr trigger_type = .ok x)
    (hau : ∃ x, vOptBool automatic = .ok x) :
    ∃ r, launchRel source_id source_name pfs action_id action_name trigger_type automatic
      = .ok [r] ∧ r.relationship_type = lt ∧ r.target_type = ltt ∧
      r.target_id = pyStr ((alook pfs "targetContainerId").getD JVal.null) ∧
      vStr source_name = .ok r.source_name ∧
      vOptStr action_name = .ok r.action_name ∧
      vOptStr trigger_type = .ok r.trigger_type ∧
      vOptBool automatic = .ok r.automatic ∧ r.action_id = some action_id := by
  rcases hl with ⟨h5, hlt, hltt⟩ | ⟨h7, hlt, hltt⟩
  · obtain ⟨r, hr⟩ := mkActionRel_total source_id source_name
      (pyStr ((alook pfs "targetContainerId").getD JVal.null)) "template"
      "ACTION_LAUNCHES_TEMPLATE" none action_id action_name trigger_type automatic
      hsn han htr hau
    refine ⟨r, ?_, ?_, ?_, ?_, ?_⟩
    · simp only [launchRel, h5, if_true, hcid, hr]
    · rw [hlt]; exact (mkActionRel_ok hr).2.2.2.2.1
    · rw [hltt]; exact (mkActionRel_ok hr).2.2.2.1
    · exact (mkActionRel_ok hr).2.1
    · rcases mkActionRel_ok_meta hr with ⟨ha, hb, hc, hd⟩
      exact ⟨ha, hb, hc, hd, (mkActionRel_ok hr).2.2.2.2.2.2.1⟩
  · have h5f : pyEqInt ((alook pfs "targetContainerType").getD JVal.null) 5 = false := by
      rw [pyEqInt_num h7 (by decide) (by decide)]
      simp [pyEqInt]
    obtain ⟨r, hr⟩ := mkActionRel_total source_id source_name
      (pyStr ((alook pfs "targetContainerId").getD JVal.null)) "plan"
      "ACTION_LAUNCHES_PLAN" none action_id action_name trigger_type automatic
      hsn han htr hau
    refine ⟨r, ?_, ?_, ?_, ?_, ?_⟩
    · simp only [launchRel, h5f, Bool.false_eq_true, reduceIte, h7, if_true, hcid, hr]
    · rw [hlt]; exact (mkActionRel_ok hr).2.2.2.2.1
    · rw [hltt]; exact (mkActionRel_ok hr).2.2.2.1
    · exact (mkActionRel_ok hr).2.1
    · rcases mkActionRel_ok_meta hr with ⟨ha, hb, hc, hd⟩
      exact ⟨ha, hb, hc, hd, (mkActionRel_ok hr).2.2.2.2.2.2.1⟩

/-- C4 counterexample: an action satisfying all of the claim's launch-branch
premises (not a REST call, `targetContainerType = 5`, present
`targetContainerId`) but with `targetObjectType = 11` from the skip set emits
NO relationship at all: the skip `continue` precedes the launch branch, so the
launch branch is NOT independent of the skip set. -/
theorem launch_branch_skipped_for_skip_set_codes :
    extract_action_relationships "1" (.str "Src") "form" [c4Action] = .ok [] ∧
    pyEqStr ((alook [("id", JVal.str "a2"), ("name", JVal.str "Act2"),
      ("consequenceType", JVal.str "CREATE_OBJECT"),
      ("consequenceParams", JVal.obj c4Params)] "consequenceType").getD (.str ""))
      "CALL_REST_API" = false ∧
    pyEqInt ((alook c4Params "targetObjectType").getD JVal.null) 11 = true ∧
    pyEqInt ((alook c4Params "targetContainerType").getD JVal.null) 5 = true ∧
    jTruthy ((alook c4Params "targetContainerId").getD JVal.null) = true :=
  ⟨rfl, rfl, rfl, rfl, rfl⟩

/-- C4 amended: the launch branch is independent of the primary
target-object-type mapping only OUTSIDE the skip set. For every action that is
not a REST call, whose parameter bag is a mapping with `targetContainerType`
5 (resp. 7) and a truthy `targetContainerId`, and whose `targetObjectType` is
NOT in {11, 16, 21, 22} — the skip set removes the whole action, launch branch
included — a launch relationship with the corresponding type and target kind
is emitted, regardless of which (if any) primary mapping the
`targetObjectType` selects. -/
theorem launch_branch_independent_outside_skip_set
    (source_id : String) (source_name : JVal) (source_type : String)
    (afs pfs : List (String × JVal)) (lt ltt : String)
    (hct : pyEqStr ((alook afs "consequenceType").getD (.str "")) "CALL_REST_API" = false)
    (hparams : (alook afs "consequenceParams").getD (.obj []) = .obj pfs)
    (hskip : (pyEqInt ((alook pfs "targetObjectType").getD JVal.null) 11 ||
              pyEqInt ((alook pfs "targetObjectType").getD JVal.null) 16 ||
              pyEqInt ((alook pfs "targetObjectType").getD JVal.null) 21 ||
              pyEqInt ((alook pfs "targetObjectType").getD JVal.null) 22) = false)
    (hl : (pyEqInt ((alook pfs "targetContainerType").getD JVal.null) 5 = true ∧
            lt = "ACTION_LAUNCHES_TEMPLATE" ∧ ltt = "template") ∨
          (pyEqInt ((alook pfs "targetContainerType").getD JVal.null) 7 = true ∧
            lt = "ACTION_LAUNCHES_PLAN" ∧ ltt = "plan"))
    (hcid : jTruthy ((alook pfs "targetContainerId").getD JVal.null) = true)
    (hsn : ∃ x, vStr source_name = .ok x)
    (han : ∃ x, vOptStr ((alook afs "name").getD (.str "Unknown Action")) = .ok x)
    (htr : ∃ x, vOptStr ((alook afs "eventType").getD (.str "")) = .ok x)
    (hau : ∃ x, vOptBool ((alook afs "automatic").getD (.bool false)) = .ok x) :
    ∃ rels r, extract_action_relationships source_id source_name source_type [.obj afs]
      = .ok rels ∧ r ∈ rels ∧ r.relationship_type = lt ∧ r.target_type = ltt ∧
      r.target_id = pyStr ((alook pfs "targetContainerId").getD JVal.null) := by
  obtain ⟨rels1, h1⟩ := primaryRel_total source_id source_name pfs
    (pyStr ((alook afs "id").getD (.str ""))) ((alook afs "name").getD (.str "Unknown Action"))
    ((alook afs "eventType").getD (.str "")) ((alook afs "automatic").getD (.bool false))
    hsn han htr hau
  obtain ⟨r, hr, hrt, hrtt, hrtid, _⟩ := launchRel_emits source_id source_name pfs
    (pyStr ((alook afs "id").getD (.str ""))) ((alook afs "name").getD (.str "Unknown Action"))
    ((alook afs "eventType").getD (.str "")) ((alook afs "automatic").getD (.bool false))
    lt ltt hl hcid hsn han htr hau
  refine ⟨(rels1 ++ [r]) ++ [], r, ?_, ?_, hrt, hrtt, hrtid⟩
  · simp only [extract_action_relationships, processActions, processAction, hparams,
      hct, Bool.false_eq_true, reduceIte, hskip, h1, hr]
  · simp

/-- C4 amended witness: `targetObjectType = 99` (not in the skip set, no
primary mapping) together with `targetContainerType = 5` and a present
`targetContainerId` emits the template-launch relationship. -/
theorem launch_branch_independent_outside_skip_set_witness :
    ∃ rels r, extract_action_relationships "1" (.str "Src") "form"
      [.obj [("id", .str "a9"), ("consequenceType", .str "CREATE_OBJECT"),
        ("consequenceParams", .obj [("targetObjectType", .num 99),
          ("targetContainerType", .num 5), ("targetContainerId", .str "T1")])]]
      = .ok rels ∧ r ∈ rels ∧ r.relationship_type = "ACTION_LAUNCHES_TEMPLATE" ∧
      r.target_type = "template" ∧
      r.target_id = pyStr ((alook [("targetObjectType", JVal.num 99),
        ("targetContainerType", JVal.num 5), ("targetContainerId", JVal.str "T1")]
        "targetContainerId").getD JVal.null) :=
  launch_branch_independent_outside_skip_set "1" (.str "Src") "form"
    [("id", .str "a9"), ("consequenceType", .str "CREATE_OBJECT"),
      ("consequenceParams", .obj [("targetObjectType", .num 99),
        ("targetContainerType", .num 5), ("targetContainerId", .str "T1")])]
    [("targetObjectType", .num 99), ("targetContainerType", .num 5),
      ("targetContainerId", .str "T1")]
    "ACTION_LAUNCHES_TEMPLATE" "template" (by rfl) (by rfl) (by rfl)
    (Or.inl ⟨by rfl, rfl, rfl⟩) (by rfl) ⟨"Src", rfl⟩ ⟨some "Unknown Action", rfl⟩
    ⟨some "", rfl⟩ ⟨some false, rfl⟩

/-- The primary branch emits exactly one relationship whenever the
`targetObjectType` selects a mapping (5/9/3) and the mapped target id is
truthy, and the action's metadata values validate. -/
theorem primaryRel_emits (source_id : String) (source_name : JVal)
    (pfs : List (String × JVal)) (action_id : String)
    (action_name trigger_type automatic : JVal) (rt tt idf : String)
    (hprim : (pyEqInt ((alook pfs "targetObjectType").getD JVal.null) 5 = true ∧
               idf = "targetForm" ∧ rt = "ACTION_CREATES_ENTRY" ∧ tt = "form") ∨
             (pyEqInt ((alook pfs "targetObjectType").getD JVal.null) 9 = true ∧
               idf = "targetProcess" ∧ rt = "ACTION_INVOKES_WORKFLOW" ∧ tt = "workflow") ∨
             (pyEqInt ((alook pfs "targetObjectType").getD JVal.null) 3 = true ∧
               idf = "targetTaskType" ∧ rt = "ACTION_CREATES_TASK" ∧ tt = "task_type"))
    (htid : jTruthy ((alook pfs idf).getD JVal.null) = true)
    (hsn : ∃ x, vStr source_name = .ok x)
    (han : ∃ x, vOptStr action_name = .ok x)
    (htr : ∃ x, vOptStr trigger_type = .ok x)
    (hau : ∃ x, vOptBool automatic = .ok x) :
    ∃ r, primaryRel source_id source_name pfs action_id action_name trigger_type automatic
      = .ok [r] ∧ r.relationship_type = rt ∧ r.target_type = tt ∧
      r.target_id = pyStr ((alook pfs idf).getD JVal.null) ∧
      vStr source_name = .ok r.source_name ∧
      vOptStr action_name = .ok r.action_name ∧
      vOptStr trigger_type = .ok r.trigger_type ∧
      vOptBool automatic = .ok r.automatic ∧ r.action_id = some action_id := by
  rcases hprim with ⟨h5, hidf, hrt, htt⟩ | ⟨h9, hidf, hrt, htt⟩ | ⟨h3, hidf, hrt, htt⟩
  · subst hidf
    obtain ⟨r, hr⟩ := mkActionRel_total source_id source_name
      (pyStr ((alook pfs "targetForm").getD JVal.null)) "form" "ACTION_CREATES_ENTRY"
      none action_id action_name trigger_type automatic hsn han htr hau
    refine ⟨r, ?_, ?_, ?_, ?_, ?_⟩
    · simp only [primaryRel, h5, if_true, htid, String.reduceEq, reduceIte, hr]
    · rw [hrt]; exact (mkActionRel_ok hr).2.2.2.2.1
    · rw [htt]; exact (mkActionRel_ok hr).2.2.2.1
    · exact (mkActionRel_ok hr).2.1
    · rcases mkActionRel_ok_meta hr with ⟨ha, hb, hc, hd⟩
      exact ⟨ha, hb, hc, hd, (mkActionRel_ok hr).2.2.2.2.2.2.1⟩
  · subst hidf
    have htot : (alook pfs "targetObjectType").getD JVal.null = .num 9 :=
      pyEqInt_num h9 (by decide) (by decide)
    have h5f : pyEqInt ((alook pfs "targetObjectType").getD JVal.null) 5 = false := by
      rw [htot]; simp [pyEqInt]
    obtain ⟨r, hr⟩ := mkActionRel_total source_id source_name
      (pyStr ((alook pfs "targetProcess").getD JVal.null)) "workflow"
      "ACTION_INVOKES_WORKFLOW" none action_id action_name trigger_type automatic
      hsn han htr hau
    refine ⟨r, ?_, ?_, ?_, ?_, ?_⟩
    · simp only [primaryRel, h5f, Bool.false_eq_true, reduceIte, h9, if_true, htid,
        String.reduceEq, hr]
    · rw [hrt]; exact (mkActionRel_ok hr).2.2.2.2.1
    · rw [htt]; exact (mkActionRel_ok hr).2.2.2.1
    · exact (mkActionRel_ok hr).2.1
    · rcases mkActionRel_ok_meta hr with ⟨ha, hb, hc, hd⟩
      exact ⟨ha, hb, hc, hd, (mkActionRel_ok hr).2.2.2.2.2.2.1⟩
  · subst hidf
    have htot : (alook pfs "targetObjectType").getD JVal.null = .num 3 :=
      pyEqInt_num h3 (by decide) (by decide)
    have h5f : pyEqInt ((alook pfs "targetObjectType").getD JVal.null) 5 = false := by
      rw [htot]; simp [pyEqInt]
    have h9f : pyEqInt ((alook pfs "targetObjectType").getD JVal.null) 9 = false := by
      rw [htot]; simp [pyEqInt]
    obtain ⟨r, hr⟩ := mkActionRel_total source_id source_name
      (pyStr ((alook pfs "targetTaskType").getD JVal.null)) "task_type"
      "ACTION_CREATES_TASK"
      (if jTruthy (pyOr (pyOr ((alook pfs "targetTaskTypeContainer").getD JVal.null)
          ((alook pfs "taskTypeContainer").getD JVal.null))
          ((alook pfs "targetContainer").getD JVal.null)) = true
       then some (pyStr (pyOr (pyOr ((alook pfs "targetTaskTypeContainer").getD JVal.null)
          ((alook pfs "taskTypeContainer").getD JVal.null))
          ((alook pfs "targetContainer").getD JVal.null)))
       else none)
      action_id action_name trigger_type automatic hsn han htr hau
    refine ⟨r, ?_, ?_, ?_, ?_, ?_⟩
    · simp only [primaryRel, h5f, h9f, Bool.false_eq_true, reduceIte, h3, if_true, htid,
        String.reduceEq, hr]
    · rw [hrt]; exact (mkActionRel_ok hr).2.2.2.2.1
    · rw [htt]; exact (mkActionRel_ok hr).2.2.2.1
    · exact (mkActionRel_ok hr).2.1
    · rcases mkActionRel_ok_meta hr with ⟨ha, hb, hc, hd⟩
      exact ⟨ha, hb, hc, hd, (mkActionRel_ok hr).2.2.2.2.2.2.1⟩

/-- C6: dual emission. A single action record whose parameter bag contains
both a valid primary target (`targetObjectType` 5 with truthy `targetForm`,
9 with `targetProcess`, or 3 with `targetTaskType`) and a valid launch target
(`targetContainerType` 5 or 7 with truthy `targetContainerId`) — and which is
not a REST call and whose metadata values validate — makes
`extract_action_relationships` emit exactly two relationships: the
create/invoke one then the launch one, carrying identical action metadata
(action_id, action_name, trigger_type, automatic). -/
theorem action_dual_emission (source_id : String) (source_name : JVal)
    (source_type : String) (afs pfs : List (String × JVal)) (rt tt idf lt ltt : String)
    (hct : pyEqStr ((alook afs "consequenceType").getD (.str "")) "CALL_REST_API" = false)
    (hparams : (alook afs "consequenceParams").getD (.obj []) = .obj pfs)
    (hprim : (pyEqInt ((alook pfs "targetObjectType").getD JVal.null) 5 = true ∧
               idf = "targetForm" ∧ rt = "ACTION_CREATES_ENTRY" ∧ tt = "form") ∨
             (pyEqInt ((alook pfs "targetObjectType").getD JVal.null) 9 = true ∧
               idf = "targetProcess" ∧ rt = "ACTION_INVOKES_WORKFLOW" ∧ tt = "workflow") ∨
             (pyEqInt ((alook pfs "targetObjectType").getD JVal.null) 3 = true ∧
               idf = "targetTaskType" ∧ rt = "ACTION_CREATES_TASK" ∧ tt = "task_type"))
    (htid : jTruthy ((alook pfs idf).getD JVal.null) = true)
    (hl : (pyEqInt ((alook pfs "targetContainerType").getD JVal.null) 5 = true ∧
            lt = "ACTION_LAUNCHES_TEMPLATE" ∧ ltt = "template") ∨
          (pyEqInt ((alook pfs "targetContainerType").getD JVal.null) 7 = true ∧
            lt = "ACTION_LAUNCHES_PLAN" ∧ ltt = "plan"))
    (hcid : jTruthy ((alook pfs "targetContainerId").getD JVal.null) = true)
    (hsn : ∃ x, vStr source_name = .ok x)
    (han : ∃ x, vOptStr ((alook afs "name").getD (.str "Unknown Action")) = .ok x)
    (htr : ∃ x, vOptStr ((alook afs "eventType").getD (.str "")) = .ok x)
    (hau : ∃ x, vOptBool ((alook afs "automatic").getD (.bool false)) = .ok x) :
    ∃ r1 r2, extract_action_relationships source_id source_name source_type [.obj afs]
      = .ok [r1, r2] ∧
      r1.relationship_type = rt ∧ r1.target_type = tt ∧
      r1.target_id = pyStr ((alook pfs idf).getD JVal.null) ∧
      r2.relationship_type = lt ∧ r2.target_type = ltt ∧
      r2.target_id = pyStr ((alook pfs "targetContainerId").getD JVal.null) ∧
      r1.action_id = r2.action_id ∧ r1.action_name = r2.action_name ∧
      r1.trigger_type = r2.trigger_type ∧ r1.automatic = r2.automatic := by
  have hskip : (pyEqInt ((alook pfs "targetObjectType").getD JVal.null) 11 ||
      pyEqInt ((alook pfs "targetObjectType").getD JVal.null) 16 ||
      pyEqInt ((alook pfs "targetObjectType").getD JVal.null) 21 ||
      pyEqInt ((alook pfs "targetObjectType").getD JVal.null) 22) = false := by
    rcases hprim with ⟨h5, _⟩ | ⟨h9, _⟩ | ⟨h3, _⟩
    · rw [pyEqInt_num h5 (by decide) (by decide)]; rfl
    · rw [pyEqInt_num h9 (by decide) (by decide)]; rfl
    · rw [pyEqInt_num h3 (by decide) (by decide)]; rfl
  obtain ⟨r1, h1, h1rt, h1tt, h1tid, h1sn, h1an, h1tr, h1au⟩ :=
    primaryRel_emits source_id source_name pfs
      (pyStr ((alook afs "id").getD (.str "")))
      ((alook afs "name").getD (.str "Unknown Action"))
      ((alook afs "eventType").getD (.str ""))
      ((alook afs "automatic").getD (.bool false))
      rt tt idf hprim htid hsn han htr hau
  obtain ⟨r2, h2, h2rt, h2tt, h2tid, h2sn, h2an, h2tr, h2au⟩ :=
    launchRel_emits source_id source_name pfs
      (pyStr ((alook afs "id").getD (.str "")))
      ((alook afs "name").getD (.str "Unknown Action"))
      ((alook afs "eventType").getD (.str ""))
      ((alook afs "automatic").getD (.bool false))
      lt ltt hl hcid hsn han htr hau
  obtain ⟨h1au', h1aid⟩ := h1au
  obtain ⟨h2au', h2aid⟩ := h2au
  refine ⟨r1, r2, ?_, h1rt, h1tt, h1tid, h2rt, h2tt, h2tid, ?_, ?_, ?_, ?_⟩
  · simp only [extract_action_relationships, processActions, processAction, hparams,
      hct, Bool.false_eq_true, reduceIte, hskip, h1, h2]
    rfl
  · rw [h1aid, h2aid]
  · have := h1an.symm.trans h2an
    injection this
  · have := h1tr.symm.trans h2tr
    injection this
  · have := h1au'.symm.trans h2au'
    injection this

/-- C6 witness: a single action invoking workflow `W1` and launching template
`T1` emits exactly the two relationships. -/
theorem action_dual_emission_witness :
    ∃ r1 r2, extract_action_relationships "1" (.str "Intake") "form" [.obj c6Action]
      = .ok [r1, r2] ∧
      r1.relationship_type = "ACTION_INVOKES_WORKFLOW" ∧ r1.target_type = "workflow" ∧
      r1.target_id = pyStr ((alook c6Params "targetProcess").getD JVal.null) ∧
      r2.relationship_type = "ACTION_LAUNCHES_TEMPLATE" ∧ r2.target_type = "template" ∧
      r2.target_id = pyStr ((alook c6Params "targetContainerId").getD JVal.null) ∧
      r1.action_id = r2.action_id ∧ r1.action_name = r2.action_name ∧
      r1.trigger_type = r2.trigger_type ∧ r1.automatic = r2.automatic :=
  action_dual_emission "1" (.str "Intake") "form" c6Action c6Params
    "ACTION_INVOKES_WORKFLOW" "workflow" "targetProcess"
    "ACTION_LAUNCHES_TEMPLATE" "template" (by rfl) (by rfl)
    (Or.inr (Or.inl ⟨by rfl, rfl, rfl, rfl⟩)) (by rfl)
    (Or.inl ⟨by rfl, rfl, rfl⟩) (by rfl) ⟨"Intake", rfl⟩ ⟨some "Act", rfl⟩
    ⟨some "SUBMIT", rfl⟩ ⟨some true, rfl⟩

/-! ### Graph construction lemmas (claims C5, C8, C10) -/

theorem alook_eq_none {α : Type} :
    ∀ (l : List (String × α)) (k : String), alook l k = none ↔ k ∉ l.map Prod.fst := by
  intro l k
  induction l with
  | nil => simp [alook]
  | cons p rest ih =>
    rcases p with ⟨k0, v0⟩
    by_cases hk : k0 = k
    · subst hk
      simp [alook]
    · simp only [alook, if_neg hk, List.map_cons, List.mem_cons]
      rw [ih]
      constructor
      · intro h hc
        rcases hc with hc | hc
        · exact hk hc.symm
        · exact h hc
      · intro h hc
        exact h (Or.inr hc)

theorem alook_some_mem {α : Type} :
    ∀ (l : List (String × α)) (k : String) (v : α), alook l k = some v → (k, v) ∈ l := by
  intro l k v
  induction l with
  | nil => intro h; simp [alook] at h
  | cons p rest ih =>
    rcases p with ⟨k0, v0⟩
    intro h
    by_cases hk : k0 = k
    · subst hk
      simp only [alook, if_pos rfl] at h
      injection h with h
      subst h
      exact List.mem_cons_self _ _
    · simp only [alook, if_neg hk] at h
      exact List.mem_cons_of_mem _ (ih h)

theorem alook_of_mem_nodup {α : Type} :
    ∀ (l : List (String × α)) (k : String) (v : α), (l.map Prod.fst).Nodup →
    (k, v) ∈ l → alook l k = some v := by
  intro l k v hnd hm
  induction l with
  | nil => simp at hm
  | cons p rest ih =>
    rcases p with ⟨k0, v0⟩
    rcases List.mem_cons.mp hm with heq | hm'
    · injection heq with h1 h2
      subst h1; subst h2
      simp [alook]
    · have hk : k0 ≠ k := by
        intro hc
        subst hc
        have : k0 ∈ rest.map Prod.fst := List.mem_map.mpr ⟨(k0, v), hm', rfl⟩
        exact (List.nodup_cons.mp hnd).1 this
      simp only [alook, if_neg hk]
      exact ih (List.nodup_cons.mp hnd).2 hm'

theorem alook_append {α : Type} :
    ∀ (l1 l2 : List (String × α)) (k : String),
    alook (l1 ++ l2) k = match alook l1 k with
      | some v => some v
      | none => alook l2 k := by
  intro l1 l2 k
  induction l1 with
  | nil => simp [alook]
  | cons p rest ih =>
    rcases p with ⟨k0, v0⟩
    by_cases hk : k0 = k
    · simp [alook, if_pos hk]
    · simp only [List.cons_append, alook, if_neg hk]
      exact ih

theorem updateNode_keys : ∀ (ns : List (String × List (String × JVal))) (nid : String)
    (attrs : List (String × JVal)),
    (updateNode ns nid attrs).map Prod.fst = ns.map Prod.fst := by
  intro ns nid attrs
  induction ns with
  | nil => rfl
  | cons p rest ih =>
    rcases p with ⟨k, d⟩
    by_cases hk : k = nid
    · simp [updateNode, if_pos hk]
    · simp [updateNode, if_neg hk, ih]

theorem alook_updateNode_ne : ∀ (ns : List (String × List (String × JVal)))
    (nid x : String) (attrs : List (String × JVal)), x ≠ nid →
    alook (updateNode ns nid attrs) x = alook ns x := by
  intro ns nid x attrs hne
  induction ns with
  | nil => rfl
  | cons p rest ih =>
    rcases p with ⟨k, d⟩
    by_cases hk : k = nid
    · subst hk
      simp only [updateNode, if_pos rfl]
      have : k ≠ x := fun hc => hne hc.symm
      simp [alook, if_neg this]
    · simp only [updateNode, if_neg hk]
      by_cases hx : k = x
      · simp [alook, if_pos hx]
      · simp only [alook, if_neg hx]
        exact ih

theorem addNode_edges (g : Graph) (k : String) (a : List (String × JVal)) :
    (addNode g k a).edges = g.edges := by
  unfold addNode
  split <;> rfl

theorem alook_addNode_ne (g : Graph) (k : String) (a : List (String × JVal))
    (x : String) (hne : x ≠ k) : alook (addNode g k a).nodes x = alook g.nodes x := by
  unfold addNode
  split
  · exact alook_updateNode_ne _ _ _ _ hne
  · simp only
    rw [alook_append]
    cases hal : alook g.nodes x with
    | some d => rfl
    | none =>
      have hkx : ¬k = x := fun hc => hne hc.symm
      simp [alook, hkx]

theorem addNode_keys_new (g : Graph) (k : String) (a : List (String × JVal))
    (h : alook g.nodes k = none) :
    (addNode g k a).nodes.map Prod.fst = g.nodes.map Prod.fst ++ [k] := by
  unfold addNode
  rw [h]
  simp

theorem addNode_nodup (g : Graph) (k : String) (a : List (String × JVal))
    (h : (g.nodes.map Prod.fst).Nodup) : ((addNode g k a).nodes.map Prod.fst).Nodup := by
  unfold addNode
  split
  case isTrue => simpa [updateNode_keys] using h
  case isFalse hni =>
    have hk : k ∉ g.nodes.map Prod.fst := by
      rw [← alook_eq_none]
      cases hal : alook g.nodes k with
      | none => rfl
      | some d => rw [hal] at hni; simp at hni
    simp only [List.map_append, List.map_cons]
    rw [List.nodup_append]
    refine ⟨h, by simp, ?_⟩
    intro y hy
    simp only [List.map_nil, List.mem_cons, List.not_mem_nil, or_false]
    intro hc
    subst hc
    exact hk hy

/-- Specification of folding a node-adding step: edges are untouched, lookups
outside the added keys are untouched, key-nodup is preserved, and when all
keys are fresh and distinct the key list is extended exactly by them. -/
theorem addNodesWith_spec (step : Graph → JVal → Except PyErr Graph)
    (keyf : JVal → Except PyErr String)
    (hstep : ∀ g e g', step g e = .ok g' →
      ∃ k attrs, keyf e = .ok k ∧ g' = addNode g k attrs) :
    ∀ (es : List JVal) (g0 g1 : Graph), addNodesWith step g0 es = .ok g1 →
    ∃ ks, keysOfE keyf es = .ok ks ∧
      g1.edges = g0.edges ∧
      (∀ x, x ∉ ks → alook g1.nodes x = alook g0.nodes x) ∧
      ((g0.nodes.map Prod.fst).Nodup → (g1.nodes.map Prod.fst).Nodup) ∧
      ((g0.nodes.map Prod.fst ++ ks).Nodup →
        g1.nodes.map Prod.fst = g0.nodes.map Prod.fst ++ ks) := by
  intro es
  induction es with
  | nil =>
    intro g0 g1 h
    simp only [addNodesWith] at h
    injection h with h
    subst h
    exact ⟨[], rfl, rfl, fun _ _ => rfl, id, fun _ => by simp⟩
  | cons e rest ih =>
    intro g0 g1 h
    simp only [addNodesWith] at h
    split at h
    case h_1 => exact absurd h (by simp)
    case h_2 g0' hstep0 =>
      obtain ⟨k, attrs, hk, hg0'⟩ := hstep g0 e g0' hstep0
      subst hg0'
      obtain ⟨ks', hks', hedges, hlook, hnodup, hkeys⟩ := ih _ _ h
      refine ⟨k :: ks', ?_, ?_, ?_, ?_, ?_⟩
      · simp only [keysOfE, hk, hks']
      · rw [hedges, addNode_edges]
      · intro x hx
        have hxk : x ≠ k := fun hc => hx (hc ▸ List.mem_cons_self _ _)
        have hxks : x ∉ ks' := fun hc => hx (List.mem_cons_of_mem _ hc)
        rw [hlook x hxks, alook_addNode_ne _ _ _ _ hxk]
      · intro hnd
        exact hnodup (addNode_nodup _ _ _ hnd)
      · intro hnd
        have hknotin : k ∉ g0.nodes.map Prod.fst := by
          intro hc
          rw [List.nodup_append] at hnd
          exact hnd.2.2 hc (List.mem_cons_self _ _)
        have hal : alook g0.nodes k = none := (alook_eq_none _ _).mpr hknotin
        have hkeys0 := addNode_keys_new g0 k attrs hal
        have hnd' : ((addNode g0 k attrs).nodes.map Prod.fst ++ ks').Nodup := by
          rw [hkeys0, List.append_assoc]
          simpa using hnd
        rw [hkeys hnd', hkeys0, List.append_assoc]
        simp

theorem formStep_spec (cid : Option String) :
    ∀ (g : Graph) (e : JVal) (g' : Graph), formStep cid g e = .ok g' →
    ∃ k attrs, formKey e = .ok k ∧ g' = addNode g k attrs := by
  intro g e g' h
  cases e with
  | obj fs =>
    simp only [formStep] at h
    injection h with h
    exact ⟨_, _, rfl, h.symm⟩
  | null => exact absurd h (by simp [formStep])
  | bool b => exact absurd h (by simp [formStep])
  | num n => exact absurd h (by simp [formStep])
  | str s => exact absurd h (by simp [formStep])
  | arr xs => exact absurd h (by simp [formStep])

theorem workflowStep_spec (cid : Option String) :
    ∀ (g : Graph) (e : JVal) (g' : Graph), workflowStep cid g e = .ok g' →
    ∃ k attrs, workflowKey e = .ok k ∧ g' = addNode g k attrs := by
  intro g e g' h
  cases e with
  | obj fs =>
    simp only [workflowStep] at h
    injection h with h
    exact ⟨_, _, rfl, h.symm⟩
  | null => exact absurd h (by simp [workflowStep])
  | bool b => exact absurd h (by simp [workflowStep])
  | num n => exact absurd h (by simp [workflowStep])
  | str s => exact absurd h (by simp [workflowStep])
  | arr xs => exact absurd h (by simp [workflowStep])

theorem taskTypeStep_spec :
    ∀ (g : Graph) (e : JVal) (g' : Graph), taskTypeStep g e = .ok g' →
    ∃ k attrs, taskTypeKey e = .ok k ∧ g' = addNode g k attrs := by
  intro g e g' h
  cases e with
  | obj fs =>
    simp only [taskTypeStep] at h
    split at h
    case h_1 cs hcs =>
      injection h with h
      exact ⟨_, _, rfl, h.symm⟩
    case h_2 => exact absurd h (by simp)
  | null => exact absurd h (by simp [taskTypeStep])
  | bool b => exact absurd h (by simp [taskTypeStep])
  | num n => exact absurd h (by simp [taskTypeStep])
  | str s => exact absurd h (by simp [taskTypeStep])
  | arr xs => exact absurd h (by simp [taskTypeStep])

theorem ensureNode_edges (g : Graph) (u : String) : (ensureNode g u).edges = g.edges := by
  unfold ensureNode
  split <;> rfl

theorem alook_ensureNode_self (g : Graph) (u : String) :
    alook (ensureNode g u).nodes u = some ((alook g.nodes u).getD []) := by
  unfold ensureNode
  split
  case isTrue hs =>
    cases hal : alook g.nodes u with
    | some d => rfl
    | none => rw [hal] at hs; simp at hs
  case isFalse hs =>
    have hal : alook g.nodes u = none := by
      cases hal : alook g.nodes u with
      | none => rfl
      | some d => rw [hal] at hs; simp at hs
    simp only
    rw [alook_append, hal]
    simp [alook]

theorem alook_ensureNode_ne (g : Graph) (u x : String) (hne : x ≠ u) :
    alook (ensureNode g u).nodes x = alook g.nodes x := by
  unfold ensureNode
  split
  · rfl
  · simp only
    rw [alook_append]
    cases hal : alook g.nodes x with
    | some d => rfl
    | none =>
      have hux : ¬u = x := fun hc => hne hc.symm
      simp [alook, hux]

theorem ensureNode_nodup (g : Graph) (u : String)
    (h : (g.nodes.map Prod.fst).Nodup) : ((ensureNode g u).nodes.map Prod.fst).Nodup := by
  unfold ensureNode
  split
  case isTrue => exact h
  case isFalse hni =>
    have hu : u ∉ g.nodes.map Prod.fst := by
      rw [← alook_eq_none]
      cases hal : alook g.nodes u with
      | none => rfl
      | some d => rw [hal] at hni; simp at hni
    simp only [List.map_append, List.map_cons, List.map_nil]
    rw [List.nodup_append]
    refine ⟨h, by simp, ?_⟩
    intro y hy
    simp only [List.mem_cons, List.not_mem_nil, or_false]
    intro hc
    subst hc
    exact hu hy

theorem addEdge_nodes_existing (g : Graph) (u v : String) (attrs : List (String × JVal))
    (x : String) (d : List (String × JVal)) (h : alook g.nodes x = some d) :
    alook (addEdge g u v attrs).nodes x = some d := by
  have h1 : alook (ensureNode (ensureNode g u) v).nodes x = some d := by
    by_cases hxu : x = u
    · subst hxu
      by_cases hxv : x = v
      · subst hxv
        rw [alook_ensureNode_self, alook_ensureNode_self, h]
        rfl
      · rw [alook_ensureNode_ne _ _ _ hxv, alook_ensureNode_self, h]
        rfl
    · by_cases hxv : x = v
      · subst hxv
        rw [alook_ensureNode_self, alook_ensureNode_ne _ _ _ hxu, h]
        rfl
      · rw [alook_ensureNode_ne _ _ _ hxv, alook_ensureNode_ne _ _ _ hxu, h]
  simp only [addEdge]
  split <;> exact h1

theorem addEdge_nodes_endpoint (g : Graph) (u v : String) (attrs : List (String × JVal))
    (x : String) (h : alook g.nodes x = none) (hx : x = u ∨ x = v) :
    alook (addEdge g u v attrs).nodes x = some [] := by
  have h1 : alook (ensureNode (ensureNode g u) v).nodes x = some [] := by
    rcases hx with rfl | rfl
    · by_cases hxv : x = v
      · subst hxv
        rw [alook_ensureNode_self, alook_ensureNode_self, h]
        rfl
      · rw [alook_ensureNode_ne _ _ _ hxv, alook_ensureNode_self, h]
        rfl
    · rw [alook_ensureNode_self]
      by_cases hxu : x = u
      · subst hxu
        rw [alook_ensureNode_self, h]
        rfl
      · rw [alook_ensureNode_ne _ _ _ hxu, h]
        rfl
  simp only [addEdge]
  split <;> exact h1

theorem addEdge_nodes_other (g : Graph) (u v : String) (attrs : List (String × JVal))
    (x : String) (hxu : x ≠ u) (hxv : x ≠ v) :
    alook (addEdge g u v attrs).nodes x = alook g.nodes x := by
  have h1 : alook (ensureNode (ensureNode g u) v).nodes x = alook g.nodes x := by
    rw [alook_ensureNode_ne _ _ _ hxv, alook_ensureNode_ne _ _ _ hxu]
  simp only [addEdge]
  split <;> exact h1

theorem addEdge_nodes_nodup (g : Graph) (u v : String) (attrs : List (String × JVal))
    (h : (g.nodes.map Prod.fst).Nodup) :
    ((addEdge g u v attrs).nodes.map Prod.fst).Nodup := by
  have h1 := ensureNode_nodup (ensureNode g u) v (ensureNode_nodup g u h)
  simp only [addEdge]
  split <;> exact h1

theorem elook_updateEdge_self :
    ∀ (es : List (String × String × List (String × JVal))) (u v : String)
    (a : List (String × JVal)),
    elook (updateEdge es u v a) u v = (elook es u v).map (fun d => mergeAttrs d a) := by
  intro es u v a
  induction es with
  | nil => rfl
  | cons e rest ih =>
    rcases e with ⟨x, y, d⟩
    by_cases hxy : x = u ∧ y = v
    · simp [updateEdge, elook, if_pos hxy]
    · simp only [updateEdge, if_neg hxy, elook]
      exact ih

theorem elook_updateEdge_ne :
    ∀ (es : List (String × String × List (String × JVal))) (u v u' v' : String)
    (a : List (String × JVal)), ¬(u' = u ∧ v' = v) →
    elook (updateEdge es u v a) u' v' = elook es u' v' := by
  intro es u v u' v' a hne
  induction es with
  | nil => rfl
  | cons e rest ih =>
    rcases e with ⟨x, y, d⟩
    by_cases hxy : x = u ∧ y = v
    · simp only [updateEdge, if_pos hxy, elook]
      have hne2 : ¬(x = u' ∧ y = v') := by
        rintro ⟨h1, h2⟩
        exact hne ⟨h1.symm.trans hxy.1, h2.symm.trans hxy.2⟩
      rw [if_neg hne2, if_neg hne2]
    · simp only [updateEdge, if_neg hxy, elook]
      by_cases hx2 : x = u' ∧ y = v'
      · rw [if_pos hx2, if_pos hx2]
      · rw [if_neg hx2, if_neg hx2]
        exact ih

theorem elook_append_last :
    ∀ (es : List (String × String × List (String × JVal))) (u v u' v' : String)
    (d : List (String × JVal)),
    elook (es ++ [(u, v, d)]) u' v' = match elook es u' v' with
      | some d0 => some d0
      | none => if u = u' ∧ v = v' then some d else none := by
  intro es u v u' v' d
  induction es with
  | nil => rfl
  | cons e rest ih =>
    rcases e with ⟨x, y, d0⟩
    by_cases hxy : x = u' ∧ y = v'
    · simp [elook, if_pos hxy]
    · simp only [List.cons_append, elook, if_neg hxy]
      exact ih

theorem addEdge_elook_self (g : Graph) (u v : String) (attrs : List (String × JVal)) :
    elook (addEdge g u v attrs).edges u v =
      some (mergeAttrs ((elook g.edges u v).getD []) attrs) := by
  simp only [addEdge]
  have hed : (ensureNode (ensureNode g u) v).edges = g.edges := by
    rw [ensureNode_edges, ensureNode_edges]
  split
  case isTrue hs =>
    rw [hed] at hs
    rw [hed, elook_updateEdge_self]
    cases hal : elook g.edges u v with
    | some d => rfl
    | none => rw [hal] at hs; simp at hs
  case isFalse hs =>
    rw [hed] at hs
    have hal : elook g.edges u v = none := by
      cases hal : elook g.edges u v with
      | none => rfl
      | some d => rw [hal] at hs; simp at hs
    rw [hed, elook_append_last, hal]
    simp

theorem addEdge_elook_ne (g : Graph) (u v : String) (attrs : List (String × JVal))
    (u' v' : String) (hne : ¬(u' = u ∧ v' = v)) :
    elook (addEdge g u v attrs).edges u' v' = elook g.edges u' v' := by
  simp only [addEdge]
  have hed : (ensureNode (ensureNode g u) v).edges = g.edges := by
    rw [ensureNode_edges, ensureNode_edges]
  split
  case isTrue hs =>
    rw [hed, elook_updateEdge_ne _ _ _ _ _ _ hne]
  case isFalse hs =>
    rw [hed, elook_append_last]
    cases hal : elook g.edges u' v' with
    | some d => rfl
    | none =>
      have hne2 : ¬(u = u' ∧ v = v') := by
        rintro ⟨h1, h2⟩
        exact hne ⟨h1.symm, h2.symm⟩
      simp [hne2]

theorem foldEdges_nodes_existing :
    ∀ (rels : List Relationship) (g : Graph) (x : String) (d : List (String × JVal)),
    alook g.nodes x = some d → alook (rels.foldl addRelEdge g).nodes x = some d := by
  intro rels
  induction rels with
  | nil => intro g x d h; exact h
  | cons r rest ih =>
    intro g x d h
    simp only [List.foldl_cons]
    exact ih _ _ _ (addEdge_nodes_existing _ _ _ _ _ _ h)

theorem foldEdges_nodes_endpoint :
    ∀ (rels : List Relationship) (g : Graph) (x : String),
    alook g.nodes x = none → (∃ r ∈ rels, x = r.source_id ∨ x = r.target_id) →
    alook (rels.foldl addRelEdge g).nodes x = some [] := by
  intro rels
  induction rels with
  | nil =>
    intro g x h hex
    rcases hex with ⟨r, hm, _⟩
    simp at hm
  | cons r rest ih =>
    intro g x h hex
    simp only [List.foldl_cons]
    by_cases hr : x = r.source_id ∨ x = r.target_id
    · exact foldEdges_nodes_existing rest _ x []
        (addEdge_nodes_endpoint _ _ _ _ _ h hr)
    · have hlook : alook (addRelEdge g r).nodes x = none := by
        rw [addRelEdge]
        rw [addEdge_nodes_other _ _ _ _ _ (fun hc => hr (Or.inl hc))
          (fun hc => hr (Or.inr hc))]
        exact h
      rcases hex with ⟨r', hm, hx⟩
      rcases List.mem_cons.mp hm with rfl | hm'
      · exact absurd hx hr
      · exact ih _ x hlook ⟨r', hm', hx⟩

theorem foldEdges_nodes_nodup :
    ∀ (rels : List Relationship) (g : Graph), (g.nodes.map Prod.fst).Nodup →
    (((rels.foldl addRelEdge g).nodes.map Prod.fst)).Nodup := by
  intro rels
  induction rels with
  | nil => intro g h; exact h
  | cons r rest ih =>
    intro g h
    simp only [List.foldl_cons]
    exact ih _ (addEdge_nodes_nodup _ _ _ _ h)

theorem foldEdges_elook :
    ∀ (rels : List Relationship) (g : Graph) (u v : String),
    elook ((rels.foldl addRelEdge g).edges) u v =
      (edgesFor rels u v).foldl (fun acc d => some (mergeAttrs (acc.getD []) d))
        (elook g.edges u v) := by
  intro rels
  induction rels with
  | nil => intro g u v; rfl
  | cons r rest ih =>
    intro g u v
    simp only [List.foldl_cons]
    by_cases hm : r.source_id = u ∧ r.target_id = v
    · have hfil : edgesFor (r :: rest) u v = edgeAttrsOf r :: edgesFor rest u v := by
        simp [edgesFor, List.filter_cons, hm.1, hm.2]
      rw [hfil]
      simp only [List.foldl_cons]
      rw [ih]
      have : elook (addRelEdge g r).edges u v =
          some (mergeAttrs ((elook g.edges u v).getD []) (edgeAttrsOf r)) := by
        rw [addRelEdge, hm.1, hm.2]
        exact addEdge_elook_self g u v (edgeAttrsOf r)
      rw [this]
    · have hfil : edgesFor (r :: rest) u v = edgesFor rest u v := by
        have hpred : (r.source_id = u && r.target_id = v) = false := by
          rw [Bool.and_eq_false_iff]
          by_cases h1 : r.source_id = u
          · right
            simp only [decide_eq_false_iff_not]
            intro hc
            exact hm ⟨h1, hc⟩
          · left
            simp only [decide_eq_false_iff_not]
            exact h1
        simp [edgesFor, List.filter_cons, hpred]
      rw [hfil]
      rw [ih]
      have : elook (addRelEdge g r).edges u v = elook g.edges u v := by
        rw [addRelEdge]
        refine addEdge_elook_ne _ _ _ _ _ _ ?_
        rintro ⟨h1, h2⟩
        exact hm ⟨h1.symm, h2.symm⟩
      rw [this]

theorem foldStep_some :
    ∀ (ds : List (List (String × JVal))) (x : List (String × JVal)),
    ds.foldl (fun acc d => some (mergeAttrs (acc.getD []) d)) (some x) =
      some (ds.foldl mergeAttrs x) := by
  intro ds
  induction ds with
  | nil => intro x; rfl
  | cons d rest ih =>
    intro x
    simp only [List.foldl_cons]
    exact ih _

theorem updateEdge_keys :
    ∀ (es : List (String × String × List (String × JVal))) (u v : String)
    (a : List (String × JVal)),
    (updateEdge es u v a).map (fun e => (e.1, e.2.1)) = es.map (fun e => (e.1, e.2.1)) := by
  intro es u v a
  induction es with
  | nil => rfl
  | cons e rest ih =>
    rcases e with ⟨x, y, d⟩
    by_cases hxy : x = u ∧ y = v
    · simp [updateEdge, if_pos hxy]
    · simp [updateEdge, if_neg hxy, ih]

theorem elook_eq_none_iff :
    ∀ (es : List (String × String × List (String × JVal))) (u v : String),
    elook es u v = none ↔ (u, v) ∉ es.map (fun e => (e.1, e.2.1)) := by
  intro es u v
  induction es with
  | nil => simp [elook]
  | cons e rest ih =>
    rcases e with ⟨x, y, d⟩
    by_cases hxy : x = u ∧ y = v
    · obtain ⟨rfl, rfl⟩ := hxy
      simp [elook]
    · simp only [elook, if_neg hxy, List.map_cons, List.mem_cons]
      rw [ih]
      constructor
      · intro h hc
        rcases hc with hc | hc
        · injection hc with h1 h2
          exact hxy ⟨h1.symm, h2.symm⟩
        · exact h hc
      · intro h hc
        exact h (Or.inr hc)

theorem addEdge_edges_nodup (g : Graph) (u v : String) (attrs : List (String × JVal))
    (h : (g.edges.map (fun e => (e.1, e.2.1))).Nodup) :
    ((addEdge g u v attrs).edges.map (fun e => (e.1, e.2.1))).Nodup := by
  simp only [addEdge]
  have hed : (ensureNode (ensureNode g u) v).edges = g.edges := by
    rw [ensureNode_edges, ensureNode_edges]
  split
  case isTrue hs =>
    simpa [hed, updateEdge_keys] using h
  case isFalse hs =>
    rw [hed] at hs
    have hal : elook g.edges u v = none := by
      cases hal : elook g.edges u v with
      | none => rfl
      | some d => rw [hal] at hs; simp at hs
    have hnotin := (elook_eq_none_iff _ _ _).mp hal
    rw [hed]
    simp only [List.map_append, List.map_cons, List.map_nil]
    rw [List.nodup_append]
    refine ⟨h, by simp, ?_⟩
    intro y hy
    simp only [List.mem_cons, List.not_mem_nil, or_false]
    intro hc
    subst hc
    exact hnotin hy

theorem foldEdges_edges_nodup :
    ∀ (rels : List Relationship) (g : Graph),
    (g.edges.map (fun e => (e.1, e.2.1))).Nodup →
    (((rels.foldl addRelEdge g).edges.map (fun e => (e.1, e.2.1)))).Nodup := by
  intro rels
  induction rels with
  | nil => intro g h; exact h
  | cons r rest ih =>
    intro g h
    simp only [List.foldl_cons]
    exact ih _ (addEdge_edges_nodup _ _ _ _ h)

theorem filter_pair_len_le_one
    (es : List (String × String × List (String × JVal))) (u v : String)
    (h : (es.map (fun e => (e.1, e.2.1))).Nodup) :
    (es.filter (fun e => e.1 = u && e.2.1 = v)).length ≤ 1 := by
  induction es with
  | nil => simp
  | cons e rest ih =>
    rcases e with ⟨x, y, d⟩
    simp only [List.map_cons, List.nodup_cons] at h
    simp only [List.filter_cons]
    by_cases hp : ((x, y, d).1 = u && (x, y, d).2.1 = v) = true
    · rw [if_pos hp]
      have hxy : x = u ∧ y = v := by
        simp only [Bool.and_eq_true, decide_eq_true_eq] at hp
        exact hp
      have hrest : rest.filter (fun e => e.1 = u && e.2.1 = v) = [] := by
        rw [List.filter_eq_nil_iff]
        intro a ha
        simp only [Bool.and_eq_true, decide_eq_true_eq, not_and]
        intro h1 h2
        apply h.1
        refine List.mem_map.mpr ⟨a, ha, ?_⟩
        rw [h1, h2, hxy.1, hxy.2]
      rw [hrest]
      simp
    · rw [if_neg hp]
      exact Nat.le_trans (ih h.2) (by omega)

/-- The entity phase of `build_graph` (before edges are folded in). -/
theorem build_graph_entity_phase (forms workflows : List JVal)
    (relationships : List Relationship) (task_types : Option (List JVal))
    (solution_container_id : Option String) (g : Graph)
    (hb : build_graph forms workflows relationships task_types solution_container_id = .ok g) :
    ∃ g3 ksf ksw kst,
      keysOfE formKey forms = .ok ksf ∧
      keysOfE workflowKey workflows = .ok ksw ∧
      keysOfE taskTypeKey (task_types.getD []) = .ok kst ∧
      g = relationships.foldl addRelEdge g3 ∧
      g3.edges = [] ∧
      (∀ x, x ∉ ksf ++ ksw ++ kst → alook g3.nodes x = none) ∧
      (g3.nodes.map Prod.fst).Nodup ∧
      ((ksf ++ ksw ++ kst).Nodup → g3.nodes.map Prod.fst = ksf ++ ksw ++ kst) := by
  unfold build_graph at hb
  split at hb
  case h_1 => exact absurd hb (by simp)
  case h_2 g1 h1 =>
    split at hb
    case h_1 => exact absurd hb (by simp)
    case h_2 g2 h2 =>
      split at hb
      case h_1 => exact absurd hb (by simp)
      case h_2 g3 h3 =>
        injection hb with hb
        obtain ⟨ksf, hksf, he1, hl1, hn1, hk1⟩ :=
          addNodesWith_spec _ formKey (formStep_spec solution_container_id) forms _ _ h1
        obtain ⟨ksw, hksw, he2, hl2, hn2, hk2⟩ :=
          addNodesWith_spec _ workflowKey (workflowStep_spec solution_container_id)
            workflows _ _ h2
        obtain ⟨kst, hkst, he3, hl3, hn3, hk3⟩ :=
          addNodesWith_spec _ taskTypeKey taskTypeStep_spec (task_types.getD []) _ _ h3
        refine ⟨g3, ksf, ksw, kst, hksf, hksw, hkst, hb.symm, ?_, ?_, ?_, ?_⟩
        · rw [he3, he2, he1]; rfl
        · intro x hx
          simp only [List.append_assoc, List.mem_append] at hx
          push_neg at hx
          rw [hl3 x hx.2.2, hl2 x hx.2.1, hl1 x hx.1]
          rfl
        · exact hn3 (hn2 (hn1 (by simp [emptyGraph])))
        · intro hnd
          have hnd1 : ((emptyGraph.nodes.map Prod.fst ++ ksf)).Nodup := by
            simpa [emptyGraph] using (List.nodup_append.mp (by
              simpa [List.append_assoc] using hnd)).1
          have hk1' := hk1 (by simpa [emptyGraph] using hnd1)
          have hg1keys : g1.nodes.map Prod.fst = ksf := by
            simpa [emptyGraph] using hk1'
          have hnd2 : (g1.nodes.map Prod.fst ++ ksw).Nodup := by
            rw [hg1keys]
            rcases List.nodup_append.mp (by simpa [List.append_assoc] using hnd)
              with ⟨ha, hbc, hd⟩
            rcases List.nodup_append.mp hbc with ⟨hbw, _, _⟩
            rw [List.nodup_append]
            exact ⟨ha, hbw, fun a haf hbw' => hd haf (List.mem_append_left _ hbw')⟩
          have hg2keys : g2.nodes.map Prod.fst = ksf ++ ksw := by
            rw [hk2 hnd2, hg1keys]
          have hnd3 : (g2.nodes.map Prod.fst ++ kst).Nodup := by
            rw [hg2keys, List.append_assoc]
            simpa [List.append_assoc] using hnd
          rw [hk3 hnd3, hg2keys, List.append_assoc]

/-- C5 counterexample: with `c5rel1` (REFERENCE, `is_subform = false`) applied
before `c5rel2` (action-derived, no `is_subform`) on the same ordered pair,
the final edge still carries `is_subform` — an attribute set by the earlier
relationship that the last relationship does not set — because networkx
`add_edge` merges attribute dicts instead of replacing them. -/
theorem edge_attrs_not_replaced_by_last :
    (build_graph [] [] [c5rel1, c5rel2] none none).map
      (fun g => (alook ((elook g.edges "1" "2").getD []) "is_subform",
                 alook (edgeAttrsOf c5rel2) "is_subform"))
      = Except.ok (some (JVal.bool false), none) := by rfl

/-- C5 amended: in `build_graph`, relationships sharing the same ordered
(source_id, target_id) pair collapse to exactly ONE directed edge, whose
attribute dict is the in-order MERGE of the per-relationship attribute dicts:
a later relationship overwrites the attribute names it sets, but attribute
names only an earlier relationship sets (e.g. `is_subform`, action metadata)
remain on the final edge. -/
theorem build_graph_edge_collapsing (forms workflows : List JVal)
    (relationships : List Relationship) (task_types : Option (List JVal))
    (solution_container_id : Option String) (g : Graph)
    (hb : build_graph forms workflows relationships task_types solution_container_id = .ok g)
    (u v : String) :
    (g.edges.filter (fun e => e.1 = u && e.2.1 = v)).length ≤ 1 ∧
    (edgesFor relationships u v = [] → elook g.edges u v = none) ∧
    (∀ d ds, edgesFor relationships u v = d :: ds →
      elook g.edges u v = some ((d :: ds).foldl mergeAttrs [])) := by
  obtain ⟨g3, ksf, ksw, kst, _, _, _, hg, hedges, _, _, _⟩ :=
    build_graph_entity_phase forms workflows relationships task_types
      solution_container_id g hb
  subst hg
  have hel : elook g3.edges u v = none := by rw [hedges]; rfl
  refine ⟨?_, ?_, ?_⟩
  · apply filter_pair_len_le_one
    apply foldEdges_edges_nodup
    rw [hedges]
    simp
  · intro hnil
    rw [foldEdges_elook, hnil, hel]
    rfl
  · intro d ds hcons
    rw [foldEdges_elook, hcons, hel]
    simp only [List.foldl_cons]
    rw [foldStep_some]
    rfl

/-- C5 amended witness: the merge result for the two concrete relationships. -/
theorem build_graph_edge_collapsing_witness :
    (c5g.edges.filter (fun e => e.1 = "1" && e.2.1 = "2")).length ≤ 1 ∧
    (edgesFor [c5rel1, c5rel2] "1" "2" = [] → elook c5g.edges "1" "2" = none) ∧
    (∀ d ds, edgesFor [c5rel1, c5rel2] "1" "2" = d :: ds →
      elook c5g.edges "1" "2" = some ((d :: ds).foldl mergeAttrs [])) :=
  build_graph_edge_collapsing [] [] [c5rel1, c5rel2] none none c5g (by rfl) "1" "2"

theorem keysOfE_length (keyf : JVal → Except PyErr String) :
    ∀ (es : List JVal) (ks : List String), keysOfE keyf es = .ok ks →
    ks.length = es.length := by
  intro es
  induction es with
  | nil =>
    intro ks h
    simp only [keysOfE] at h
    injection h with h
    subst h
    rfl
  | cons e rest ih =>
    intro ks h
    simp only [keysOfE] at h
    split at h
    case h_1 => exact absurd h (by simp)
    case h_2 k hk =>
      split at h
      case h_1 => exact absurd h (by simp)
      case h_2 ks' hks =>
        injection h with h
        subst h
        simp [ih ks' hks]

theorem groupOf_append_none {p : List (List String)} {x : String}
    (h : groupOf p x = none) (q : List (List String)) :
    groupOf (p ++ q) x = groupOf q x := by
  induction p with
  | nil => rfl
  | cons g0 rest ih =>
    simp only [groupOf, List.find?] at h ⊢
    cases hc : g0.contains x with
    | true => rw [hc] at h; simp at h
    | false =>
      rw [hc] at h
      exact ih h

theorem groupOf_singleton_ne {x k : String} (hne : x ≠ k) :
    groupOf [[k]] x = none := by
  simp only [groupOf, List.find?]
  have : ([k].contains x) = false := by
    simp [List.contains]
    exact hne
  rw [this]

theorem wccInit_length :
    ∀ (ns : List (String × List (String × JVal))) (p : List (List String)),
    (ns.map Prod.fst).Nodup → (∀ x ∈ ns.map Prod.fst, groupOf p x = none) →
    (wccInit ns p).length = p.length + ns.length := by
  intro ns
  induction ns with
  | nil => intro p _ _; simp [wccInit]
  | cons n rest ih =>
    intro p hnd hnone
    have hn : groupOf p n.1 = none := hnone n.1 (by simp)
    simp only [wccInit, hn, Option.isSome_none, Bool.false_eq_true, reduceIte]
    simp only [List.map_cons, List.nodup_cons] at hnd
    have hrest : ∀ x ∈ rest.map Prod.fst, groupOf (p ++ [[n.1]]) x = none := by
      intro x hx
      rw [groupOf_append_none (hnone x (by simp [hx])) _]
      exact groupOf_singleton_ne (fun hc => hnd.1 (hc ▸ hx))
    rw [ih _ hnd.2 hrest]
    simp only [List.length_append, List.length_cons, List.length_nil]
    omega

/-- C8: a graph built from entities with pairwise-distinct node keys and an
empty relationship list reports `isolated_nodes = N` and
`connected_components = N`, where N is the number of supplied entities. -/
theorem stats_isolated_and_components_without_relationships
    (forms workflows : List JVal) (task_types : Option (List JVal))
    (solution_container_id : Option String) (g : Graph) (ks : List String)
    (hb : build_graph forms workflows [] task_types solution_container_id = .ok g)
    (hk : entityKeys forms workflows (task_types.getD []) = .ok ks)
    (hnodup : ks.Nodup) :
    (get_graph_stats g).isolated_nodes =
      forms.length + workflows.length + (task_types.getD []).length ∧
    (get_graph_stats g).connected_components =
      forms.length + workflows.length + (task_types.getD []).length := by
  obtain ⟨g3, ksf, ksw, kst, hksf, hksw, hkst, hg, hedges, _, _, hkeys⟩ :=
    build_graph_entity_phase forms workflows [] task_types solution_container_id g hb
  have hgg : g = g3 := hg
  subst hgg
  have hkeq : ks = ksf ++ ksw ++ kst := by
    unfold entityKeys at hk
    rw [hksf, hksw, hkst] at hk
    injection hk with hk
    exact hk.symm
  subst hkeq
  have hkeys' := hkeys hnodup
  have hlen : g.nodes.length = forms.length + workflows.length + (task_types.getD []).length := by
    have h1 : g.nodes.length = (g.nodes.map Prod.fst).length := (List.length_map _ _).symm
    rw [h1, hkeys']
    simp only [List.length_append]
    rw [keysOfE_length formKey forms ksf hksf,
      keysOfE_length workflowKey workflows ksw hksw,
      keysOfE_length taskTypeKey (task_types.getD []) kst hkst]
  constructor
  · show (g.nodes.filter (fun n => isIsolated g n.1)).length = _
    have hfil : g.nodes.filter (fun n => isIsolated g n.1) = g.nodes := by
      rw [List.filter_eq_self]
      intro a _
      simp [isIsolated, hedges]
    rw [hfil, hlen]
  · show (wccCount g) = _
    unfold wccCount
    rw [hedges]
    simp only [List.foldl_nil]
    rw [wccInit_length g.nodes [] (hkeys' ▸ hnodup) (fun x _ => rfl)]
    simpa using hlen

theorem elook_mem :
    ∀ (es : List (String × String × List (String × JVal))) (u v : String)
    (d : List (String × JVal)), elook es u v = some d → (u, v, d) ∈ es := by
  intro es u v d
  induction es with
  | nil => intro h; simp [elook] at h
  | cons e rest ih =>
    rcases e with ⟨x, y, d0⟩
    intro h
    by_cases hxy : x = u ∧ y = v
    · obtain ⟨rfl, rfl⟩ := hxy
      simp [elook] at h
      subst h
      exact List.mem_cons_self _ _
    · simp only [elook, if_neg hxy] at h
      exact List.mem_cons_of_mem _ (ih h)

/-- C9: `get_node_neighbors` is a total function with a structured result.
An id absent from the graph yields the not-found error mapping; a present id
yields the node's name and type with the predecessor and successor entry
lists, and every incoming (resp. outgoing) edge contributes its entry — id,
neighbor name, edge relationship type and field name — to `referenced_by`
(resp. `references`). -/
theorem get_node_neighbors_spec (g : Graph) (node_id : String) :
    (alook g.nodes node_id = none →
      get_node_neighbors g node_id =
        .obj [("error", .str ("Node " ++ node_id ++ " not found"))]) ∧
    (∀ nd, alook g.nodes node_id = some nd →
      get_node_neighbors g node_id = .obj [("id", .str node_id),
        ("name", (alook nd "name").getD .null),
        ("type", (alook nd "node_type").getD .null),
        ("referenced_by", .arr (predEntries g node_id)),
        ("references", .arr (succEntries g node_id))] ∧
      (∀ u d, elook g.edges u node_id = some d →
        nbrEntry g u d ∈ predEntries g node_id) ∧
      (∀ v d, elook g.edges node_id v = some d →
        nbrEntry g v d ∈ succEntries g node_id)) := by
  constructor
  · intro h
    unfold get_node_neighbors
    rw [h]
  · intro nd h
    refine ⟨?_, ?_, ?_⟩
    · unfold get_node_neighbors
      rw [h]
    · intro u d hd
      have hm := elook_mem _ _ _ _ hd
      unfold predEntries
      exact List.mem_filterMap.mpr ⟨(u, node_id, d), hm, by simp⟩
    · intro v d hd
      have hm := elook_mem _ _ _ _ hd
      unfold succEntries
      exact List.mem_filterMap.mpr ⟨(node_id, v, d), hm, by simp⟩

/-- C9 witness: looking a node up in the empty graph reports the structured
not-found mapping. -/
theorem get_node_neighbors_spec_witness :
    get_node_neighbors emptyGraph "x" =
      .obj [("error", .str ("Node " ++ "x" ++ " not found"))] :=
  (get_node_neighbors_spec emptyGraph "x").1 rfl

/-- C8 witness: one form, no relationships — one isolated node, one
component. -/
theorem stats_isolated_and_components_without_relationships_witness :
    (get_graph_stats c8g).isolated_nodes =
      [JVal.obj [("id", JVal.str "1")]].length + List.length ([] : List JVal) +
        ((none : Option (List JVal)).getD []).length ∧
    (get_graph_stats c8g).connected_components =
      [JVal.obj [("id", JVal.str "1")]].length + List.length ([] : List JVal) +
        ((none : Option (List JVal)).getD []).length :=
  stats_isolated_and_components_without_relationships
    [JVal.obj [("id", JVal.str "1")]] [] none none c8g ["1"]
    (by rfl) (by rfl) (by simp)

/-- C10: `build_graph` adds a bare node for every relationship endpoint that
matches no supplied form, workflow, or task type: the node exists with an
EMPTY attribute dict (no name, node_type, external or container_id);
it is part of the node table (hence counted in `total_nodes` and included in
the isolated-node and connected-component computations, which range over that
table); it belongs to none of the form/workflow/task_type node sets whose
lengths are `form_count`/`workflow_count`/`task_type_count`; and any
`most_referenced`/`most_referencing` entry for it carries a null name. -/
theorem build_graph_auto_added_endpoint_nodes (forms workflows : List JVal)
    (relationships : List Relationship) (task_types : Option (List JVal))
    (solution_container_id : Option String) (g : Graph) (ks : List String)
    (hb : build_graph forms workflows relationships task_types solution_container_id = .ok g)
    (hk : entityKeys forms workflows (task_types.getD []) = .ok ks)
    (r : Relationship) (hr : r ∈ relationships) (x : String)
    (hx : x = r.source_id ∨ x = r.target_id) (hnew : x ∉ ks) :
    alook g.nodes x = some [] ∧
    x ∈ g.nodes.map Prod.fst ∧
    (get_graph_stats g).total_nodes = g.nodes.length ∧
    x ∉ (nodesOfType g "form").map Prod.fst ∧
    x ∉ (nodesOfType g "workflow").map Prod.fst ∧
    x ∉ (nodesOfType g "task_type").map Prod.fst ∧
    (∀ e ∈ (get_graph_stats g).most_referenced, e.1 = x → e.2.1 = JVal.null) ∧
    (∀ e ∈ (get_graph_stats g).most_referencing, e.1 = x → e.2.1 = JVal.null) := by
  obtain ⟨g3, ksf, ksw, kst, hksf, hksw, hkst, hg, hedges, hlook, hnodup3, _⟩ :=
    build_graph_entity_phase forms workflows relationships task_types
      solution_container_id g hb
  subst hg
  have hkeq : ks = ksf ++ ksw ++ kst := by
    unfold entityKeys at hk
    rw [hksf, hksw, hkst] at hk
    injection hk with hk
    exact hk.symm
  subst hkeq
  have hnone : alook g3.nodes x = none := hlook x hnew
  have hsome : alook (relationships.foldl addRelEdge g3).nodes x = some [] :=
    foldEdges_nodes_endpoint relationships g3 x hnone ⟨r, hr, hx⟩
  have hnd : (((relationships.foldl addRelEdge g3).nodes.map Prod.fst)).Nodup :=
    foldEdges_nodes_nodup _ _ hnodup3
  have hnot : ∀ t, x ∉ (nodesOfType (relationships.foldl addRelEdge g3) t).map Prod.fst := by
    intro t hc
    rcases List.mem_map.mp hc with ⟨⟨x', d⟩, hmem, hfst⟩
    simp only at hfst
    subst hfst
    rcases List.mem_filter.mp hmem with ⟨hmem', hpred⟩
    have hald := alook_of_mem_nodup _ _ _ hnd hmem'
    rw [hsome] at hald
    injection hald with hald
    subst hald
    simp [pyEqStr, alook] at hpred
  have hname : getNodeAttrD (relationships.foldl addRelEdge g3) x "name" = JVal.null := by
    unfold getNodeAttrD
    rw [hsome]
    rfl
  have htop : ∀ degs, ∀ e ∈ topRefList (relationships.foldl addRelEdge g3) degs,
      e.1 = x → e.2.1 = JVal.null := by
    intro degs e he hex
    rcases List.mem_filterMap.mp he with ⟨p, hp, heq⟩
    split at heq
    case isTrue =>
      injection heq with heq
      subst heq
      simp only at hex
      rw [← hex] at hname
      simp only [hname]
    case isFalse => exact absurd heq (by simp)
  refine ⟨hsome, ?_, rfl, hnot "form", hnot "workflow", hnot "task_type", ?_, ?_⟩
  · exact List.mem_map.mpr ⟨(x, []), alook_some_mem _ _ _ hsome, rfl⟩
  · exact htop _
  · exact htop _

/-- C10 witness: the template target "99" of `c10Rel` appears as a bare node
of `c10g`, counted in the totals but in none of the typed node sets, with a
null name in the top-reference lists. -/
theorem build_graph_auto_added_endpoint_nodes_witness :
    alook c10g.nodes "99" = some [] ∧
    "99" ∈ c10g.nodes.map Prod.fst ∧
    (get_graph_stats c10g).total_nodes = c10g.nodes.length ∧
    "99" ∉ (nodesOfType c10g "form").map Prod.fst ∧
    "99" ∉ (nodesOfType c10g "workflow").map Prod.fst ∧
    "99" ∉ (nodesOfType c10g "task_type").map Prod.fst ∧
    (∀ e ∈ (get_graph_stats c10g).most_referenced, e.1 = "99" → e.2.1 = JVal.null) ∧
    (∀ e ∈ (get_graph_stats c10g).most_referencing, e.1 = "99" → e.2.1 = JVal.null) :=
  build_graph_auto_added_endpoint_nodes
    [JVal.obj [("id", JVal.str "1"), ("name", JVal.str "A")]] [] [c10Rel] none none
    c10g ["1"] (by rfl) (by rfl) c10Rel (List.mem_cons_self _ _) "99"
    (Or.inr rfl) (by simp)

end Veoci
